import Mathlib

/-!
Verification development for the zenavif-parse AVIF parser (src/lib.rs).

The definitions below are a shallow embedding of the Rust source:

* byte input is a `List Nat` (one entry per byte);
* the pull reader (`std::io::Cursor` wrapped in `OffsetReader`, with the
  nested `Take` limits created by `BMFFBox`) is the structure `Rdr`: a shared
  byte list, a read position, and a stack of remaining-byte counters, one per
  enclosing box (innermost first), mirroring how each `BMFFBox` wraps the
  parent reader in a `Take`;
* fallible Rust functions returning `Result<T>` become
  `... → Except Err (T × Rdr)`;
* machine integers are `Nat`; the places where the source performs *checked*
  arithmetic on `u64`/`usize` carry an explicit `< 2^64` test.

Reading loops driven by `BoxIter::next_box` are written with an explicit
fuel argument.  The entry points pass `remaining bytes + 1` as fuel; since a
successfully read box header consumes at least 8 bytes, the fuel strictly
exceeds the number of boxes that can still be read, and the out-of-fuel
branch is unreachable.
-/

set_option linter.unusedVariables false

deriving instance DecidableEq for Except

namespace Avif

/-- Mirrors `enough::StopReason` (only the variants the crate surfaces). -/
inductive StopReason where
  | cancelled
  | deadline
deriving DecidableEq, Repr

/-- Mirrors `Error` in src/lib.rs (the `Io` variant carries no data here:
the pure model never constructs it). -/
inductive Err where
  | invalidData (msg : String)
  | unsupported (msg : String)
  | unexpectedEOF
  | io
  | noMoov
  | outOfMemory
  | resourceLimitExceeded (msg : String)
  | stopped (reason : StopReason)
deriving DecidableEq, Repr

/-- Mirrors the `Stop` implementations exercised by the crate:
`Unstoppable` (always Ok) and the tests' `ImmediatelyCancelled`. -/
inductive StopTok where
  | unstoppable
  | immediatelyCancelled
deriving DecidableEq, Repr

/-- `Stop::check`. -/
def StopTok.check : StopTok → Except Err Unit
  | .unstoppable => .ok ()
  | .immediatelyCancelled => .error (.stopped .cancelled)

/-- `u64::MAX + 1`. -/
def U64 : Nat := 2 ^ 64

/-- `u64::MAX` (the sentinel size of a `size == 0` box). -/
def U64MAX : Nat := 2 ^ 64 - 1

/-- `u32::MAX`. -/
def U32MAX : Nat := 2 ^ 32 - 1

/-- Mirrors `DecodeConfig`. -/
structure DecodeConfig where
  peakMemoryLimit : Option Nat
  totalMegapixelsLimit : Option Nat
  maxAnimationFrames : Option Nat
  maxGridTiles : Option Nat
  lenient : Bool
deriving DecidableEq, Repr

/-- `DecodeConfig::default()`. -/
def DecodeConfig.default : DecodeConfig :=
  { peakMemoryLimit := some 1000000000
    totalMegapixelsLimit := some 512
    maxAnimationFrames := some 10000
    maxGridTiles := some 1000
    lenient := false }

/-- `DecodeConfig::unlimited()`. -/
def DecodeConfig.unlimited : DecodeConfig :=
  { peakMemoryLimit := none
    totalMegapixelsLimit := none
    maxAnimationFrames := none
    maxGridTiles := none
    lenient := false }

/-! ## The byte reader

`Rdr` models the reader stack at a given moment: `data`/`pos` are the
underlying `Cursor`+`OffsetReader` (so `pos` is `Offset::offset`), and
`lims` are the remaining-byte counters of the enclosing `Take`s
(innermost first). -/

structure Rdr where
  data : List Nat
  pos : Nat
  lims : List Nat
deriving DecidableEq, Repr

/-- Number of bytes a read can actually deliver: the underlying data that is
left, capped by every enclosing `Take` limit. -/
def Rdr.avail (r : Rdr) : Nat :=
  r.lims.foldr Nat.min (r.data.length - r.pos)

/-- `BMFFBox::bytes_left` — the innermost `Take`'s remaining counter. -/
def Rdr.bytesLeft (r : Rdr) : Nat :=
  r.lims.headD 0

/-- Enter a box: wrap the reader in a `Take` of `n` bytes. -/
def Rdr.push (r : Rdr) (n : Nat) : Rdr :=
  { r with lims := n :: r.lims }

/-- Leave a box (the `BMFFBox` is dropped). -/
def Rdr.pop (r : Rdr) : Rdr :=
  { r with lims := r.lims.tail }

/-- Advance the reader by `n` bytes: the position moves and every `Take`
counter is decremented. -/
def Rdr.advance (r : Rdr) (n : Nat) : Rdr :=
  { r with pos := r.pos + n, lims := r.lims.map (· - n) }

/-- `Read::read_exact` for `n` bytes: delivers exactly the `n` bytes at the
current position, or fails with `UnexpectedEof` when the data or an
enclosing `Take` cannot supply them. -/
def readExact (n : Nat) (r : Rdr) : Except Err (List Nat × Rdr) :=
  if n ≤ r.avail then .ok ((r.data.drop r.pos).take n, r.advance n)
  else .error .unexpectedEOF

/-- `skip` (io::copy into a sink): consumes `min n avail` bytes and never
fails. -/
def skipN (n : Nat) (r : Rdr) : Rdr :=
  r.advance (Nat.min n r.avail)

/-- Big-endian value of a byte list. -/
def beVal (bs : List Nat) : Nat :=
  bs.foldl (fun acc b => acc * 256 + b) 0

/-- `read_u8`. -/
def readU8 (r : Rdr) : Except Err (Nat × Rdr) := do
  let (bs, r) ← readExact 1 r
  .ok (beVal bs, r)

/-- `be_u16`. -/
def beU16 (r : Rdr) : Except Err (Nat × Rdr) := do
  let (bs, r) ← readExact 2 r
  .ok (beVal bs, r)

/-- `be_u32`. -/
def beU32 (r : Rdr) : Except Err (Nat × Rdr) := do
  let (bs, r) ← readExact 4 r
  .ok (beVal bs, r)

/-- `be_u64`. -/
def beU64 (r : Rdr) : Except Err (Nat × Rdr) := do
  let (bs, r) ← readExact 8 r
  .ok (beVal bs, r)

/-- `BMFFBox::read_into_try_vec` — `read_to_end` of the current box: consumes
everything the reader can still deliver. -/
def readIntoTryVec (r : Rdr) : List Nat × Rdr :=
  ((r.data.drop r.pos).take r.avail, r.advance r.avail)

/-! ## Box headers and box iteration -/

/-- Four-character codes, encoded as the big-endian `u32` the crate reads
(the `BoxType` enum of the crate's boxes module is a bijective renaming of
these values; unrecognized codes stay unrecognized in both). -/
def cc (a b c d : Nat) : Nat := ((a * 256 + b) * 256 + c) * 256 + d

def ftypCC : Nat := cc 0x66 0x74 0x79 0x70
def metaCC : Nat := cc 0x6D 0x65 0x74 0x61
def moovCC : Nat := cc 0x6D 0x6F 0x6F 0x76
def mdatCC : Nat := cc 0x6D 0x64 0x61 0x74
def pitmCC : Nat := cc 0x70 0x69 0x74 0x6D
def iinfCC : Nat := cc 0x69 0x69 0x6E 0x66
def infeCC : Nat := cc 0x69 0x6E 0x66 0x65
def ilocCC : Nat := cc 0x69 0x6C 0x6F 0x63
def irefCC : Nat := cc 0x69 0x72 0x65 0x66
def iprpCC : Nat := cc 0x69 0x70 0x72 0x70
def ipcoCC : Nat := cc 0x69 0x70 0x63 0x6F
def ipmaCC : Nat := cc 0x69 0x70 0x6D 0x61
def idatCC : Nat := cc 0x69 0x64 0x61 0x74
def uuidCC : Nat := cc 0x75 0x75 0x69 0x64
def trakCC : Nat := cc 0x74 0x72 0x61 0x6B
def mdiaCC : Nat := cc 0x6D 0x64 0x69 0x61
def mdhdCC : Nat := cc 0x6D 0x64 0x68 0x64
def mvhdCC : Nat := cc 0x6D 0x76 0x68 0x64
def minfCC : Nat := cc 0x6D 0x69 0x6E 0x66
def stblCC : Nat := cc 0x73 0x74 0x62 0x6C
def sttsCC : Nat := cc 0x73 0x74 0x74 0x73
def stscCC : Nat := cc 0x73 0x74 0x73 0x63
def stszCC : Nat := cc 0x73 0x74 0x73 0x7A
def stcoCC : Nat := cc 0x73 0x74 0x63 0x6F
def co64CC : Nat := cc 0x63 0x6F 0x36 0x34
def av01CC : Nat := cc 0x61 0x76 0x30 0x31
def gridCC : Nat := cc 0x67 0x72 0x69 0x64
def avifCC : Nat := cc 0x61 0x76 0x69 0x66
def avisCC : Nat := cc 0x61 0x76 0x69 0x73
def auxCCC : Nat := cc 0x61 0x75 0x78 0x43
def ispeCC : Nat := cc 0x69 0x73 0x70 0x65
def pixiCC : Nat := cc 0x70 0x69 0x78 0x69
def edtsCC : Nat := cc 0x65 0x64 0x74 0x73
def elstCC : Nat := cc 0x65 0x6C 0x73 0x74
def dimgCC : Nat := cc 0x64 0x69 0x6D 0x67
def auxlCC : Nat := cc 0x61 0x75 0x78 0x6C
def premCC : Nat := cc 0x70 0x72 0x65 0x6D
def trefCC : Nat := cc 0x74 0x72 0x65 0x66

/-- Mirrors `BoxHeader` (`name` is the raw FourCC). -/
structure BoxHeader where
  name : Nat
  size : Nat
  offset : Nat
  uuid : Option (List Nat)
deriving DecidableEq, Repr

/-- `BoxHeader::MIN_SIZE`. -/
def MIN_SIZE : Nat := 8

/-- `BoxHeader::MIN_LARGE_SIZE`. -/
def MIN_LARGE_SIZE : Nat := 16

/-- `read_box_header`. -/
def readBoxHeader (r : Rdr) : Except Err (BoxHeader × Rdr) := do
  let (size32, r) ← beU32 r
  let (name, r) ← beU32 r
  let sizeR : Except Err (Nat × Rdr) :=
    if size32 = 0 then .ok (U64MAX, r)
    else if size32 = 1 then do
      let (size64, r) ← beU64 r
      if size64 < MIN_LARGE_SIZE then .error (.invalidData "malformed wide size")
      else .ok (size64, r)
    else
      if size32 < MIN_SIZE then .error (.invalidData "malformed size")
      else .ok (size32, r)
  let (size, r) ← sizeR
  let offset := if size32 = 1 then MIN_LARGE_SIZE else MIN_SIZE
  -- the uuid branch performs a plain `read`, which delivers what is
  -- available (up to 16 bytes) without failing
  let (offset, uuid, r) :=
    if name = uuidCC then
      if offset + 16 ≤ size then
        let count := Nat.min 16 r.avail
        let bytes := (r.data.drop r.pos).take count
        (offset + count, if count = 16 then some bytes else none, r.advance count)
      else (offset, none, r)
    else (offset, none, r)
  .ok ({ name := name, size := size, offset := offset, uuid := uuid }, r)

/-- `BoxIter::next_box`: a failed header read at end of input yields `none`;
on success the reader is wrapped in a `Take` of `size - offset` bytes. -/
def nextBox (r : Rdr) : Except Err (Option (BoxHeader × Rdr)) :=
  match readBoxHeader r with
  | .ok (h, r1) => .ok (some (h, r1.push (h.size - h.offset)))
  | .error .unexpectedEOF => .ok none
  | .error e => .error e

/-- `skip_box_content` (skips `size - offset` bytes of the current box). -/
def skipBoxContent (h : BoxHeader) (r : Rdr) : Except Err Rdr :=
  if h.offset > h.size then .error (.invalidData "header offset > size")
  else .ok (skipN (h.size - h.offset) r)

/-- `skip_box_remain` (skips `bytes_left` bytes of the current box). -/
def skipBoxRemain (r : Rdr) : Rdr :=
  skipN r.bytesLeft r

/-- `check_parser_state`: the current box must be fully consumed, unless its
size was the `size == 0` sentinel. -/
def checkParserState (h : BoxHeader) (r : Rdr) : Except Err Unit :=
  if r.bytesLeft = 0 ∨ h.size = U64MAX then .ok ()
  else .error (.invalidData "unread box content or bad parser sync")

/-- `read_fullbox_extra`: version byte plus 24-bit flags. -/
def readFullboxExtra (r : Rdr) : Except Err ((Nat × Nat) × Rdr) := do
  let (version, r) ← readU8 r
  let (fa, r) ← readU8 r
  let (fb, r) ← readU8 r
  let (fc, r) ← readU8 r
  .ok ((version, fa * 65536 + fb * 256 + fc), r)

/-- `read_fullbox_version_no_flags`. -/
def readFullboxVersionNoFlags (lenient : Bool) (r : Rdr) :
    Except Err (Nat × Rdr) := do
  let ((version, flags), r) ← readFullboxExtra r
  if flags ≠ 0 ∧ !lenient then .error (.unsupported "expected flags to be 0")
  else .ok (version, r)

/-! ## Structure model (the records built by the box parsers) -/

/-- Mirrors `ExtentRange` (`WithLength(Range)` / `ToEnd(RangeFrom)`). -/
inductive ExtentRange where
  | withLength (start stop : Nat)
  | toEnd (start : Nat)
deriving DecidableEq, Repr

/-- `ExtentRange::start`. -/
def ExtentRange.first : ExtentRange → Nat
  | .withLength s _ => s
  | .toEnd s => s

/-- Mirrors `ConstructionMethod`. -/
inductive ConstructionMethod where
  | file
  | idat
  | item
deriving DecidableEq, Repr

/-- Mirrors `ItemLocationBoxExtent`. -/
structure ItemLocationBoxExtent where
  extentRange : ExtentRange
deriving DecidableEq, Repr

/-- Mirrors `ItemLocationBoxItem`. -/
structure ItemLocationBoxItem where
  itemId : Nat
  constructionMethod : ConstructionMethod
  extents : List ItemLocationBoxExtent
deriving DecidableEq, Repr

/-- Mirrors `ItemInfoEntry`. -/
structure ItemInfoEntry where
  itemId : Nat
  itemType : Nat
deriving DecidableEq, Repr

/-- Mirrors `SingleItemTypeReferenceBox`. -/
structure SingleItemTypeReferenceBox where
  itemType : Nat
  fromItemId : Nat
  toItemId : Nat
  referenceIndex : Nat
deriving DecidableEq, Repr

/-- Mirrors `GridConfig`. -/
structure GridConfig where
  rows : Nat
  columns : Nat
  outputWidth : Nat
  outputHeight : Nat
deriving DecidableEq, Repr

/-- Mirrors `ImageSpatialExtents`. -/
structure ImageSpatialExtents where
  width : Nat
  height : Nat
deriving DecidableEq, Repr

/-- Mirrors `ItemProperty`. -/
inductive ItemProperty where
  | channels (chans : List Nat)
  | auxiliaryType (auxData : List Nat)
  | imageSpatialExtents (e : ImageSpatialExtents)
  | imageGrid (g : GridConfig)
  | unsupported
deriving DecidableEq, Repr

/-- Mirrors `AssociatedProperty`. -/
structure AssociatedProperty where
  itemId : Nat
  property : ItemProperty
deriving DecidableEq, Repr

/-- Mirrors `Association` (from `read_ipma`). -/
structure Association where
  itemId : Nat
  essential : Bool
  propertyIndex : Nat
deriving DecidableEq, Repr

/-- Mirrors `AvifInternalMeta`. -/
structure AvifInternalMeta where
  itemReferences : List SingleItemTypeReferenceBox
  properties : List AssociatedProperty
  primaryItemId : Nat
  ilocItems : List ItemLocationBoxItem
  itemInfos : List ItemInfoEntry
  idat : Option (List Nat)
deriving DecidableEq, Repr

/-- Mirrors `TimeToSampleEntry`. -/
structure TimeToSampleEntry where
  sampleCount : Nat
  sampleDelta : Nat
deriving DecidableEq, Repr

/-- Mirrors `SampleToChunkEntry`. -/
structure SampleToChunkEntry where
  firstChunk : Nat
  samplesPerChunk : Nat
  sampleDescriptionIndex : Nat
deriving DecidableEq, Repr

/-- Mirrors `SampleTable`. -/
structure SampleTable where
  timeToSample : List TimeToSampleEntry
  sampleToChunk : List SampleToChunkEntry
  sampleSizes : List Nat
  chunkOffsets : List Nat
deriving DecidableEq, Repr

/-- Mirrors `MdatBounds`. -/
structure MdatBounds where
  offset : Nat
  length : Nat
deriving DecidableEq, Repr

/-- Mirrors `ParsedStructure` (the `animation_data` triple is
`(media_timescale, sample_table, loop_count)`). -/
structure ParsedStructure where
  meta : AvifInternalMeta
  mdatBounds : List MdatBounds
  animationData : Option (Nat × SampleTable × Nat)
deriving DecidableEq, Repr

/-! ## The `iloc` bit reader -/

/-- The `bitreader::BitReader` state over a byte list. -/
structure Bits where
  data : List Nat
  pos : Nat
deriving DecidableEq, Repr

/-- `BitReader::remaining`. -/
def Bits.remaining (b : Bits) : Nat := b.data.length * 8 - b.pos

/-- Bit `i` of the stream (most-significant bit of each byte first). -/
def bitAt (data : List Nat) (i : Nat) : Nat :=
  data.getD (i / 8) 0 / 2 ^ (7 - i % 8) % 2

/-- Big-endian value of `n` bits starting at `pos`. -/
def bitsVal (data : List Nat) (pos n : Nat) : Nat :=
  (List.range n).foldl (fun acc i => acc * 2 + bitAt data (pos + i)) 0

/-- `BitReader::read_uXX(n)`: reads `n` bits, failing (as the crate maps
`BitReaderError`) with `InvalidData("truncated bits")` past the end.
A 0-bit read yields 0. -/
def Bits.read (b : Bits) (n : Nat) : Except Err (Nat × Bits) :=
  if b.pos + n ≤ b.data.length * 8 then
    .ok (bitsVal b.data b.pos n, { b with pos := b.pos + n })
  else .error (.invalidData "truncated bits")

/-- Mirrors `IlocFieldSize`. -/
inductive IlocFieldSize where
  | zero
  | four
  | eight
deriving DecidableEq, Repr

/-- `IlocFieldSize::to_bits`. -/
def IlocFieldSize.toBits : IlocFieldSize → Nat
  | .zero => 0
  | .four => 32
  | .eight => 64

/-- `TryFrom<u8> for IlocFieldSize`. -/
def IlocFieldSize.tryFrom (v : Nat) : Except Err IlocFieldSize :=
  if v = 0 then .ok .zero
  else if v = 4 then .ok .four
  else if v = 8 then .ok .eight
  else .error (.invalidData "value must be in the set \x7b0, 4, 8\x7d")

/-- Mirrors `IlocVersion`. -/
inductive IlocVersion where
  | zero
  | one
  | two
deriving DecidableEq, Repr

/-- `TryFrom<u8> for IlocVersion`. -/
def IlocVersion.tryFrom (v : Nat) : Except Err IlocVersion :=
  if v = 0 then .ok .zero
  else if v = 1 then .ok .one
  else if v = 2 then .ok .two
  else .error (.unsupported "unsupported version in \x27iloc\x27 box")

/-- The extent-range computation of `read_iloc` (lines building
`extent_range` from `base_offset`, `extent_offset`, `extent_length`): both
additions are `u64::checked_add`. -/
def mkExtentRange (baseOffset extentOffset extentLength : Nat) :
    Except Err ExtentRange :=
  if baseOffset + extentOffset ≥ U64 then
    .error (.invalidData "offset calculation overflow")
  else if extentLength = 0 then
    .ok (.toEnd (baseOffset + extentOffset))
  else if baseOffset + extentOffset + extentLength ≥ U64 then
    .error (.invalidData "end calculation overflow")
  else
    .ok (.withLength (baseOffset + extentOffset)
      (baseOffset + extentOffset + extentLength))

/-- One extent of an `iloc` item (the extent loop body of `read_iloc`). -/
def readIlocExtent (indexSize : Option IlocFieldSize) (offsetSize lengthSize :
    IlocFieldSize) (baseOffset : Nat) (b : Bits) :
    Except Err (ItemLocationBoxExtent × Bits) := do
  let b ← match indexSize with
    | none => pure b
    | some .zero => pure b
    | some s => do
      let (_, b) ← b.read s.toBits
      pure b
  let (extentOffset, b) ← b.read offsetSize.toBits
  let (extentLength, b) ← b.read lengthSize.toBits
  let range ← mkExtentRange baseOffset extentOffset extentLength
  .ok ({ extentRange := range }, b)

/-- The extent loop of `read_iloc`. -/
def readIlocExtents (indexSize : Option IlocFieldSize)
    (offsetSize lengthSize : IlocFieldSize) (baseOffset : Nat) :
    Nat → Bits → List ItemLocationBoxExtent →
    Except Err (List ItemLocationBoxExtent × Bits)
  | 0, b, acc => .ok (acc, b)
  | n + 1, b, acc => do
    let (e, b) ← readIlocExtent indexSize offsetSize lengthSize baseOffset b
    readIlocExtents indexSize offsetSize lengthSize baseOffset n b (acc ++ [e])

/-- One item of the `iloc` box (the item loop body of `read_iloc`). -/
def readIlocItem (version : IlocVersion) (indexSize : Option IlocFieldSize)
    (offsetSize lengthSize baseOffsetSize : IlocFieldSize) (b : Bits) :
    Except Err (ItemLocationBoxItem × Bits) := do
  let (itemId, b) ← match version with
    | .zero | .one => b.read 16
    | .two => b.read 32
  let (construction, b) ← match version with
    | .zero => pure (ConstructionMethod.file, b)
    | .one | .two => do
      let (_, b) ← b.read 12
      let (m, b) ← b.read 4
      if m = 0 then pure (ConstructionMethod.file, b)
      else if m = 1 then pure (ConstructionMethod.idat, b)
      else if m = 2 then
        throw (Err.unsupported "construction_method \x27item_offset\x27 is not supported")
      else
        throw (Err.invalidData "construction_method is taken from the set 0, 1 or 2 per ISO 14496-12:2015 § 8.11.3.3")
  let (dataReferenceIndex, b) ← b.read 16
  if dataReferenceIndex ≠ 0 then
    throw (Err.unsupported "external file references (iloc.data_reference_index != 0) are not supported")
  let (baseOffset, b) ← b.read baseOffsetSize.toBits
  let (extentCount, b) ← b.read 16
  if extentCount < 1 then
    throw (Err.invalidData "extent_count must have a value 1 or greater per ISO 14496-12:2015 § 8.11.3.3")
  let (extents, b) ← readIlocExtents indexSize offsetSize lengthSize baseOffset
    extentCount b []
  .ok (ItemLocationBoxItem.mk itemId construction extents, b)

/-- The item loop of `read_iloc`. -/
def readIlocItems (version : IlocVersion) (indexSize : Option IlocFieldSize)
    (offsetSize lengthSize baseOffsetSize : IlocFieldSize) :
    Nat → Bits → List ItemLocationBoxItem →
    Except Err (List ItemLocationBoxItem × Bits)
  | 0, b, acc => .ok (acc, b)
  | n + 1, b, acc => do
    let (it, b) ← readIlocItem version indexSize offsetSize lengthSize
      baseOffsetSize b
    readIlocItems version indexSize offsetSize lengthSize baseOffsetSize n b
      (acc ++ [it])

/-- Header fields plus item loop of `read_iloc`, over the box's raw bytes. -/
def readIlocPhase (version : IlocVersion) (bytes : List Nat) :
    Except Err (List ItemLocationBoxItem × Bits) := do
  let b : Bits := { data := bytes, pos := 0 }
  let (v, b) ← b.read 4
  let offsetSize ← IlocFieldSize.tryFrom v
  let (v, b) ← b.read 4
  let lengthSize ← IlocFieldSize.tryFrom v
  let (v, b) ← b.read 4
  let baseOffsetSize ← IlocFieldSize.tryFrom v
  let (indexSize, b) ← match version with
    | .one | .two => do
      let (v, b) ← b.read 4
      let s ← IlocFieldSize.tryFrom v
      pure (some s, b)
    | .zero => do
      let (_, b) ← b.read 4
      pure (none, b)
  let (itemCount, b) ← match version with
    | .zero | .one => b.read 16
    | .two => b.read 32
  readIlocItems version indexSize offsetSize lengthSize baseOffsetSize
    itemCount b []

/-- `read_iloc` applied to the byte content of the box (after the fullbox
version prefix): parse all items, then require the bit reader to be
exhausted. -/
def readIlocBody (version : IlocVersion) (bytes : List Nat) :
    Except Err (List ItemLocationBoxItem) :=
  match readIlocPhase version bytes with
  | .error e => .error e
  | .ok (items, b) =>
    if b.remaining = 0 then .ok items
    else .error (.invalidData "invalid iloc size")

/-- `read_iloc` (reading from the box reader). -/
def readIloc (lenient : Bool) (r : Rdr) :
    Except Err (List ItemLocationBoxItem × Rdr) := do
  let (v, r) ← readFullboxVersionNoFlags lenient r
  let version ← IlocVersion.tryFrom v
  let (bytes, r) := readIntoTryVec r
  let items ← readIlocBody version bytes
  .ok (items, r)

/-! ## Leaf parsers of the `meta` subtree -/

/-- Loop fuel for a `while next_box` loop entered at reader state `r`: one
more than the bytes that can still be read.  Each successfully read box
header consumes at least 8 bytes, so the fuel can never be exhausted. -/
def fuelOf (r : Rdr) : Nat := r.data.length - r.pos + 1

/-- Mirrors `FileTypeBox`. -/
structure FileTypeBox where
  majorBrand : Nat
  minorVersion : Nat
  compatibleBrands : List Nat
deriving DecidableEq, Repr

/-- The brand loop of `read_ftyp`. -/
def readFtypBrands : Nat → Rdr → List Nat → Except Err (List Nat × Rdr)
  | 0, r, acc => .ok (acc, r)
  | n + 1, r, acc => do
    let (b, r) ← beU32 r
    readFtypBrands n r (acc ++ [b])

/-- `read_ftyp`. -/
def readFtyp (r : Rdr) : Except Err (FileTypeBox × Rdr) := do
  let (major, r) ← beU32 r
  let (minor, r) ← beU32 r
  let left := r.bytesLeft
  if left % 4 ≠ 0 then throw (Err.invalidData "invalid ftyp size")
  let (brands, r) ← readFtypBrands (left / 4) r []
  .ok ({ majorBrand := major, minorVersion := minor,
         compatibleBrands := brands }, r)

/-- `read_pitm`. -/
def readPitm (lenient : Bool) (r : Rdr) : Except Err (Nat × Rdr) := do
  let (version, r) ← readFullboxVersionNoFlags lenient r
  if version = 0 then beU16 r
  else if version = 1 then beU32 r
  else throw (Err.unsupported "unsupported pitm version")

/-- `read_infe`. -/
def readInfe (r : Rdr) : Except Err (ItemInfoEntry × Rdr) := do
  let ((version, _), r) ← readFullboxExtra r
  let (itemId, r) ←
    if version = 2 then beU16 r
    else if version = 3 then beU32 r
    else throw (Err.unsupported "unsupported version in \x27infe\x27 box")
  let (itemProtectionIndex, r) ← beU16 r
  if itemProtectionIndex ≠ 0 then
    throw (Err.unsupported "protected items (infe.item_protection_index != 0) are not supported")
  let (itemType, r) ← beU32 r
  let r := skipBoxRemain r
  .ok ({ itemId := itemId, itemType := itemType }, r)

/-- The `infe` loop of `read_iinf`. -/
def readIinfGo : Nat → Rdr → List ItemInfoEntry →
    Except Err (List ItemInfoEntry × Rdr)
  | 0, _, _ => .error (.invalidData "loop fuel exhausted")
  | fuel + 1, r, acc => do
    match ← nextBox r with
    | none => .ok (acc, r)
    | some (h, r1) =>
      if h.name ≠ infeCC then
        throw (Err.invalidData "iinf box should contain only infe boxes")
      else do
        let (entry, r2) ← readInfe r1
        checkParserState h r2
        readIinfGo fuel r2.pop (acc ++ [entry])

/-- `read_iinf`. -/
def readIinf (lenient : Bool) (r : Rdr) :
    Except Err (List ItemInfoEntry × Rdr) := do
  let (version, r) ← readFullboxVersionNoFlags lenient r
  if version ≠ 0 ∧ version ≠ 1 then
    throw (Err.unsupported "unsupported iinf version")
  let (_, r) ← if version = 0 then beU16 r else beU32 r
  readIinfGo (fuelOf r) r []

/-- The inner `to_item_id` loop of `read_iref` (`referenceIndex` counts from
0 within the current reference box). -/
def readIrefRefs (version : Nat) (itemType fromItemId : Nat) :
    Nat → Nat → Rdr → List SingleItemTypeReferenceBox →
    Except Err (List SingleItemTypeReferenceBox × Rdr)
  | 0, _, r, acc => .ok (acc, r)
  | n + 1, refIdx, r, acc => do
    let (toItemId, r) ← if version = 0 then beU16 r else beU32 r
    if fromItemId = toItemId then
      throw (Err.invalidData "from_item_id and to_item_id must be different")
    readIrefRefs version itemType fromItemId n (refIdx + 1) r
      (acc ++ [{ itemType := itemType, fromItemId := fromItemId,
                 toItemId := toItemId, referenceIndex := refIdx }])

/-- The box loop of `read_iref`. -/
def readIrefGo (version : Nat) : Nat → Rdr →
    List SingleItemTypeReferenceBox →
    Except Err (List SingleItemTypeReferenceBox × Rdr)
  | 0, _, _ => .error (.invalidData "loop fuel exhausted")
  | fuel + 1, r, acc => do
    match ← nextBox r with
    | none => .ok (acc, r)
    | some (h, r1) => do
      let (fromItemId, r2) ← if version = 0 then beU16 r1 else beU32 r1
      let (referenceCount, r2) ← beU16 r2
      let (acc, r2) ← readIrefRefs version h.name fromItemId referenceCount 0
        r2 acc
      checkParserState h r2
      readIrefGo version fuel r2.pop acc

/-- `read_iref`. -/
def readIref (lenient : Bool) (r : Rdr) :
    Except Err (List SingleItemTypeReferenceBox × Rdr) := do
  let (version, r) ← readFullboxVersionNoFlags lenient r
  if version > 1 then throw (Err.unsupported "iref version")
  readIrefGo version (fuelOf r) r []

/-- `read_pixi` (the `ArrayVec<u8, 16>` caps the channel count at 16). -/
def readPixi (lenient : Bool) (h : BoxHeader) (r : Rdr) :
    Except Err (List Nat × Rdr) := do
  let (version, r) ← readFullboxVersionNoFlags lenient r
  if version ≠ 0 then throw (Err.unsupported "pixi version")
  let (numChannels, r) ← readU8 r
  let len := Nat.min numChannels 16
  let (channels, r) ← match readExact len r with
    | .ok res => pure res
    | .error _ => throw (Err.invalidData "invalid num_channels")
  let r := if lenient ∧ r.bytesLeft > 0 then skipN r.bytesLeft r else r
  checkParserState h r
  .ok (channels, r)

/-- `read_auxc`. -/
def readAuxc (lenient : Bool) (r : Rdr) : Except Err (List Nat × Rdr) := do
  let (version, r) ← readFullboxVersionNoFlags lenient r
  if version ≠ 0 then throw (Err.unsupported "auxC version")
  .ok (readIntoTryVec r)

/-- `read_ispe`. -/
def readIspe (lenient : Bool) (r : Rdr) :
    Except Err (ImageSpatialExtents × Rdr) := do
  let (_, r) ← readFullboxVersionNoFlags lenient r
  let (width, r) ← beU32 r
  let (height, r) ← beU32 r
  if width = 0 ∨ height = 0 then
    throw (Err.invalidData "ispe dimensions cannot be zero")
  .ok ({ width := width, height := height }, r)

/-- `read_grid`. -/
def readGrid (lenient : Bool) (r : Rdr) : Except Err (GridConfig × Rdr) := do
  let (version, r) ← readFullboxVersionNoFlags lenient r
  if version > 0 then throw (Err.unsupported "grid version > 0")
  let (flagsByte, r) ← readU8 r
  let (rows, r) ← readU8 r
  let (columns, r) ← readU8 r
  let (outputWidth, outputHeight, r) ←
    if flagsByte % 2 = 0 then do
      let (w, r) ← beU16 r
      let (hgt, r) ← beU16 r
      pure (w, hgt, r)
    else do
      let (w, r) ← beU32 r
      let (hgt, r) ← beU32 r
      pure (w, hgt, r)
  .ok ({ rows := rows, columns := columns, outputWidth := outputWidth,
         outputHeight := outputHeight }, r)

/-- The box loop of `read_ipco` (every child pushes a property so that the
1-based `ipma` indices line up; unrecognized children are skipped and
recorded as `Unsupported`). -/
def readIpcoGo (lenient : Bool) : Nat → Rdr → List ItemProperty →
    Except Err (List ItemProperty × Rdr)
  | 0, _, _ => .error (.invalidData "loop fuel exhausted")
  | fuel + 1, r, acc => do
    match ← nextBox r with
    | none => .ok (acc, r)
    | some (h, r1) => do
      let (prop, r2) ←
        if h.name = pixiCC then do
          let (chans, r2) ← readPixi lenient h r1
          pure (ItemProperty.channels chans, r2)
        else if h.name = auxCCC then do
          let (auxData, r2) ← readAuxc lenient r1
          pure (ItemProperty.auxiliaryType auxData, r2)
        else if h.name = ispeCC then do
          let (e, r2) ← readIspe lenient r1
          pure (ItemProperty.imageSpatialExtents e, r2)
        else if h.name = gridCC then do
          let (g, r2) ← readGrid lenient r1
          pure (ItemProperty.imageGrid g, r2)
        else
          pure (ItemProperty.unsupported, skipBoxRemain r1)
      readIpcoGo lenient fuel r2.pop (acc ++ [prop])

/-- `read_ipco`. -/
def readIpco (lenient : Bool) (r : Rdr) :
    Except Err (List ItemProperty × Rdr) :=
  readIpcoGo lenient (fuelOf r) r []

/-- The inner association loop of `read_ipma`: each association is 1 or 2
bytes; the first bit is `essential` and the rest is the property index. -/
def readIpmaAssocs (flags itemId : Nat) : Nat → Rdr → List Association →
    Except Err (List Association × Rdr)
  | 0, r, acc => .ok (acc, r)
  | n + 1, r, acc => do
    let numBytes := if flags % 2 = 1 then 2 else 1
    let (bytes, r) ← readExact numBytes r
    let essential := bitAt bytes 0 = 1
    let propertyIndex := bitsVal bytes 1 (numBytes * 8 - 1)
    readIpmaAssocs flags itemId n r
      (acc ++ [{ itemId := itemId, essential := essential,
                 propertyIndex := propertyIndex }])

/-- The entry loop of `read_ipma`. -/
def readIpmaEntries (version flags : Nat) : Nat → Rdr → List Association →
    Except Err (List Association × Rdr)
  | 0, r, acc => .ok (acc, r)
  | n + 1, r, acc => do
    let (itemId, r) ← if version = 0 then beU16 r else beU32 r
    let (associationCount, r) ← readU8 r
    let (acc, r) ← readIpmaAssocs flags itemId associationCount r acc
    readIpmaEntries version flags n r acc

/-- `read_ipma`. -/
def readIpma (r : Rdr) : Except Err (List Association × Rdr) := do
  let ((version, flags), r) ← readFullboxExtra r
  let (entryCount, r) ← beU32 r
  readIpmaEntries version flags entryCount r []

/-- The association/property join at the end of `read_iprp` (index origin 1;
index 0 and `Unsupported` properties are dropped; declaration order kept). -/
def joinAssociations (props : List ItemProperty) :
    List Association → List AssociatedProperty
  | [] => []
  | a :: rest =>
    let tail := joinAssociations props rest
    if a.propertyIndex = 0 then tail
    else
      match props.get? (a.propertyIndex - 1) with
      | some p => if p ≠ ItemProperty.unsupported then
          { itemId := a.itemId, property := p } :: tail
        else tail
      | none => tail

/-- The box loop of `read_iprp` (later `ipco`/`ipma` boxes replace earlier
results; this loop performs no `check_parser_state`). -/
def readIprpGo (lenient : Bool) : Nat → Rdr → List ItemProperty →
    List Association → Except Err ((List ItemProperty × List Association) × Rdr)
  | 0, _, _, _ => .error (.invalidData "loop fuel exhausted")
  | fuel + 1, r, props, assocs => do
    match ← nextBox r with
    | none => .ok ((props, assocs), r)
    | some (h, r1) =>
      if h.name = ipcoCC then do
        let (props, r2) ← readIpco lenient r1
        readIprpGo lenient fuel r2.pop props assocs
      else if h.name = ipmaCC then do
        let (assocs, r2) ← readIpma r1
        readIprpGo lenient fuel r2.pop props assocs
      else
        throw (Err.invalidData "unexpected ipco child")

/-- `read_iprp`. -/
def readIprp (lenient : Bool) (r : Rdr) :
    Except Err (List AssociatedProperty × Rdr) := do
  let ((props, assocs), r) ← readIprpGo lenient (fuelOf r) r [] []
  .ok (joinAssociations props assocs, r)

/-! ## `read_avif_meta` -/

/-- Accumulator of the `read_avif_meta` box loop. -/
structure MetaAcc where
  primaryItemId : Option Nat
  itemInfos : Option (List ItemInfoEntry)
  ilocItems : Option (List ItemLocationBoxItem)
  itemReferences : List SingleItemTypeReferenceBox
  properties : List AssociatedProperty
  idat : Option (List Nat)
deriving DecidableEq, Repr

/-- The box loop of `read_avif_meta`. -/
def readAvifMetaGo (lenient : Bool) : Nat → Rdr → MetaAcc →
    Except Err (MetaAcc × Rdr)
  | 0, _, _ => .error (.invalidData "loop fuel exhausted")
  | fuel + 1, r, acc => do
    match ← nextBox r with
    | none => .ok (acc, r)
    | some (h, r1) =>
      if h.name = iinfCC then do
        if acc.itemInfos.isSome then
          throw (Err.invalidData "There should be zero or one iinf boxes per ISO 14496-12:2015 § 8.11.6.1")
        let (infos, r2) ← readIinf lenient r1
        checkParserState h r2
        readAvifMetaGo lenient fuel r2.pop { acc with itemInfos := some infos }
      else if h.name = ilocCC then do
        if acc.ilocItems.isSome then
          throw (Err.invalidData "There should be zero or one iloc boxes per ISO 14496-12:2015 § 8.11.3.1")
        let (items, r2) ← readIloc lenient r1
        checkParserState h r2
        readAvifMetaGo lenient fuel r2.pop { acc with ilocItems := some items }
      else if h.name = pitmCC then do
        if acc.primaryItemId.isSome then
          throw (Err.invalidData "There should be zero or one iloc boxes per ISO 14496-12:2015 § 8.11.4.1")
        let (pid, r2) ← readPitm lenient r1
        checkParserState h r2
        readAvifMetaGo lenient fuel r2.pop { acc with primaryItemId := some pid }
      else if h.name = irefCC then do
        let (refs, r2) ← readIref lenient r1
        checkParserState h r2
        readAvifMetaGo lenient fuel r2.pop
          { acc with itemReferences := acc.itemReferences ++ refs }
      else if h.name = iprpCC then do
        let (props, r2) ← readIprp lenient r1
        checkParserState h r2
        readAvifMetaGo lenient fuel r2.pop { acc with properties := props }
      else if h.name = idatCC then do
        if acc.idat.isSome then
          throw (Err.invalidData "There should be zero or one idat boxes")
        let (bytes, r2) := readIntoTryVec r1
        checkParserState h r2
        readAvifMetaGo lenient fuel r2.pop { acc with idat := some bytes }
      else do
        let r2 ← skipBoxContent h r1
        checkParserState h r2
        readAvifMetaGo lenient fuel r2.pop acc

/-- `read_avif_meta`. -/
def readAvifMeta (lenient : Bool) (r : Rdr) :
    Except Err (AvifInternalMeta × Rdr) := do
  let (version, r) ← readFullboxVersionNoFlags lenient r
  if version ≠ 0 then throw (Err.unsupported "unsupported meta version")
  let (acc, r) ← readAvifMetaGo lenient (fuelOf r) r
    { primaryItemId := none, itemInfos := none, ilocItems := none,
      itemReferences := [], properties := [], idat := none }
  let primaryItemId ← match acc.primaryItemId with
    | some pid => pure pid
    | none => throw (Err.invalidData "Required pitm box not present in meta box")
  let itemInfos ← match acc.itemInfos with
    | some infos => pure infos
    | none => throw (Err.invalidData "iinf missing")
  match itemInfos.find? (fun x => x.itemId = primaryItemId) with
  | some info =>
    if info.itemType ≠ av01CC ∧ info.itemType ≠ gridCC then
      throw (Err.invalidData "primary_item_id type is not av01 or grid")
  | none => throw (Err.invalidData "primary_item_id not present in iinf box")
  let ilocItems ← match acc.ilocItems with
    | some items => pure items
    | none => throw (Err.invalidData "iloc missing")
  .ok ({ itemReferences := acc.itemReferences, properties := acc.properties,
         primaryItemId := primaryItemId, ilocItems := ilocItems,
         itemInfos := itemInfos, idat := acc.idat }, r)

/-! ## `moov` subtree -/

/-- Mirrors `MovieHeader`. -/
structure MovieHeader where
  timescale : Nat
  duration : Nat
deriving DecidableEq, Repr

/-- Mirrors `MediaHeader`. -/
structure MediaHeader where
  timescale : Nat
  duration : Nat
deriving DecidableEq, Repr

/-- `read_mvhd`. -/
def readMvhd (r : Rdr) : Except Err (MovieHeader × Rdr) := do
  let (version, r) ← readU8 r
  let (_, r) ← readExact 3 r
  let (timescale, duration, r) ←
    if version = 1 then do
      let (_, r) ← beU64 r
      let (_, r) ← beU64 r
      let (ts, r) ← beU32 r
      let (dur, r) ← beU64 r
      pure (ts, dur, r)
    else do
      let (_, r) ← beU32 r
      let (_, r) ← beU32 r
      let (ts, r) ← beU32 r
      let (dur, r) ← beU32 r
      pure (ts, dur, r)
  let r := skipBoxRemain r
  .ok ({ timescale := timescale, duration := duration }, r)

/-- `read_mdhd`. -/
def readMdhd (r : Rdr) : Except Err (MediaHeader × Rdr) := do
  let (version, r) ← readU8 r
  let (_, r) ← readExact 3 r
  let (timescale, duration, r) ←
    if version = 1 then do
      let (_, r) ← beU64 r
      let (_, r) ← beU64 r
      let (ts, r) ← beU32 r
      let (dur, r) ← beU64 r
      pure (ts, dur, r)
    else do
      let (_, r) ← beU32 r
      let (_, r) ← beU32 r
      let (ts, r) ← beU32 r
      let (dur, r) ← beU32 r
      pure (ts, dur, r)
  let r := skipBoxRemain r
  .ok ({ timescale := timescale, duration := duration }, r)

/-- The entry loop of `read_stts`. -/
def readSttsEntries : Nat → Rdr → List TimeToSampleEntry →
    Except Err (List TimeToSampleEntry × Rdr)
  | 0, r, acc => .ok (acc, r)
  | n + 1, r, acc => do
    let (sampleCount, r) ← beU32 r
    let (sampleDelta, r) ← beU32 r
    readSttsEntries n r
      (acc ++ [{ sampleCount := sampleCount, sampleDelta := sampleDelta }])

/-- `read_stts`. -/
def readStts (r : Rdr) : Except Err (List TimeToSampleEntry × Rdr) := do
  let (_, r) ← readU8 r
  let (_, r) ← readExact 3 r
  let (entryCount, r) ← beU32 r
  readSttsEntries entryCount r []

/-- The entry loop of `read_stsc`. -/
def readStscEntries : Nat → Rdr → List SampleToChunkEntry →
    Except Err (List SampleToChunkEntry × Rdr)
  | 0, r, acc => .ok (acc, r)
  | n + 1, r, acc => do
    let (firstChunk, r) ← beU32 r
    let (samplesPerChunk, r) ← beU32 r
    let (sdi, r) ← beU32 r
    readStscEntries n r
      (acc ++ [{ firstChunk := firstChunk, samplesPerChunk := samplesPerChunk,
                 sampleDescriptionIndex := sdi }])

/-- `read_stsc`. -/
def readStsc (r : Rdr) : Except Err (List SampleToChunkEntry × Rdr) := do
  let (_, r) ← readU8 r
  let (_, r) ← readExact 3 r
  let (entryCount, r) ← beU32 r
  readStscEntries entryCount r []

/-- The variable-size loop of `read_stsz`. -/
def readStszSizes : Nat → Rdr → List Nat → Except Err (List Nat × Rdr)
  | 0, r, acc => .ok (acc, r)
  | n + 1, r, acc => do
    let (s, r) ← beU32 r
    readStszSizes n r (acc ++ [s])

/-- `read_stsz`. -/
def readStsz (r : Rdr) : Except Err (List Nat × Rdr) := do
  let (_, r) ← readU8 r
  let (_, r) ← readExact 3 r
  let (sampleSize, r) ← beU32 r
  let (sampleCount, r) ← beU32 r
  if sampleSize = 0 then readStszSizes sampleCount r []
  else .ok (List.replicate sampleCount sampleSize, r)

/-- The entry loop of `read_chunk_offsets`. -/
def readChunkOffsetEntries (is64 : Bool) : Nat → Rdr → List Nat →
    Except Err (List Nat × Rdr)
  | 0, r, acc => .ok (acc, r)
  | n + 1, r, acc => do
    let (o, r) ← if is64 then beU64 r else beU32 r
    readChunkOffsetEntries is64 n r (acc ++ [o])

/-- `read_chunk_offsets`. -/
def readChunkOffsets (is64 : Bool) (r : Rdr) :
    Except Err (List Nat × Rdr) := do
  let (_, r) ← readU8 r
  let (_, r) ← readExact 3 r
  let (entryCount, r) ← beU32 r
  readChunkOffsetEntries is64 entryCount r []

/-- The box loop of `read_stbl` (later boxes of the same kind replace
earlier results; no `check_parser_state`). -/
def readStblGo : Nat → Rdr → SampleTable → Except Err (SampleTable × Rdr)
  | 0, _, _ => .error (.invalidData "loop fuel exhausted")
  | fuel + 1, r, acc => do
    match ← nextBox r with
    | none => .ok (acc, r)
    | some (h, r1) =>
      if h.name = sttsCC then do
        let (tts, r2) ← readStts r1
        readStblGo fuel r2.pop { acc with timeToSample := tts }
      else if h.name = stscCC then do
        let (stc, r2) ← readStsc r1
        readStblGo fuel r2.pop { acc with sampleToChunk := stc }
      else if h.name = stszCC then do
        let (sizes, r2) ← readStsz r1
        readStblGo fuel r2.pop { acc with sampleSizes := sizes }
      else if h.name = stcoCC then do
        let (offs, r2) ← readChunkOffsets false r1
        readStblGo fuel r2.pop { acc with chunkOffsets := offs }
      else if h.name = co64CC then do
        let (offs, r2) ← readChunkOffsets true r1
        readStblGo fuel r2.pop { acc with chunkOffsets := offs }
      else
        readStblGo fuel (skipBoxRemain r1).pop acc

/-- `read_stbl`. -/
def readStbl (r : Rdr) : Except Err (SampleTable × Rdr) :=
  readStblGo (fuelOf r) r
    { timeToSample := [], sampleToChunk := [], sampleSizes := [],
      chunkOffsets := [] }

/-- The box loop of `read_minf`: returns at the first `stbl` box, leaving
any remaining `minf` children unread. -/
def readMinfGo : Nat → Rdr → Except Err (Option SampleTable × Rdr)
  | 0, _ => .error (.invalidData "loop fuel exhausted")
  | fuel + 1, r => do
    match ← nextBox r with
    | none => .ok (none, r)
    | some (h, r1) =>
      if h.name = stblCC then do
        let (table, r2) ← readStbl r1
        .ok (some table, r2.pop)
      else
        readMinfGo fuel (skipBoxRemain r1).pop

/-- `read_minf`. -/
def readMinf (r : Rdr) : Except Err (Option SampleTable × Rdr) :=
  readMinfGo (fuelOf r) r

/-- The box loop of `read_mdia` (`media_timescale` defaults to 1000; a later
`minf` replaces the sample table, even with `None`). -/
def readMdiaGo : Nat → Rdr → Nat → Option SampleTable →
    Except Err ((Nat × Option SampleTable) × Rdr)
  | 0, _, _, _ => .error (.invalidData "loop fuel exhausted")
  | fuel + 1, r, ts, table => do
    match ← nextBox r with
    | none => .ok ((ts, table), r)
    | some (h, r1) =>
      if h.name = mdhdCC then do
        let (mdhd, r2) ← readMdhd r1
        readMdiaGo fuel r2.pop mdhd.timescale table
      else if h.name = minfCC then do
        let (table, r2) ← readMinf r1
        readMdiaGo fuel r2.pop ts table
      else
        readMdiaGo fuel (skipBoxRemain r1).pop ts table

/-- `read_mdia`. -/
def readMdia (r : Rdr) : Except Err (Option (Nat × SampleTable) × Rdr) := do
  let ((ts, table), r) ← readMdiaGo (fuelOf r) r 1000 none
  match table with
  | some t => .ok (some (ts, t), r)
  | none => .ok (none, r)

/-- The box loop of `read_trak`: returns at the first `mdia` box, leaving
any remaining `trak` children unread. -/
def readTrakGo : Nat → Rdr → Except Err (Option (Nat × SampleTable) × Rdr)
  | 0, _ => .error (.invalidData "loop fuel exhausted")
  | fuel + 1, r => do
    match ← nextBox r with
    | none => .ok (none, r)
    | some (h, r1) =>
      if h.name = mdiaCC then do
        let (res, r2) ← readMdia r1
        .ok (res, r2.pop)
      else
        readTrakGo fuel (skipBoxRemain r1).pop

/-- `read_trak`. -/
def readTrak (r : Rdr) : Except Err (Option (Nat × SampleTable) × Rdr) :=
  readTrakGo (fuelOf r) r

/-- The box loop of `read_moov`: only the first track that yields a sample
table is consulted; once one is recorded every further `trak` box is
skipped. -/
def readMoovGo : Nat → Rdr → Option Nat → Option SampleTable →
    Except Err ((Option Nat × Option SampleTable) × Rdr)
  | 0, _, _, _ => .error (.invalidData "loop fuel exhausted")
  | fuel + 1, r, mts, table => do
    match ← nextBox r with
    | none => .ok ((mts, table), r)
    | some (h, r1) =>
      if h.name = mvhdCC then do
        let (_, r2) ← readMvhd r1
        readMoovGo fuel r2.pop mts table
      else if h.name = trakCC then
        if mts.isNone then do
          let (res, r2) ← readTrak r1
          match res with
          | some (ts, stbl) => readMoovGo fuel r2.pop (some ts) (some stbl)
          | none => readMoovGo fuel r2.pop mts table
        else
          readMoovGo fuel (skipBoxRemain r1).pop mts table
      else
        readMoovGo fuel (skipBoxRemain r1).pop mts table

/-- `read_moov`. -/
def readMoov (r : Rdr) : Except Err (Option (Nat × SampleTable) × Rdr) := do
  let ((mts, table), r) ← readMoovGo (fuelOf r) r none none
  match mts, table with
  | some ts, some stbl => .ok (some (ts, stbl), r)
  | _, _ => .ok (none, r)

/-! ## `AvifParser::parse_raw` -/

/-- The `ftyp` phase of `parse_raw`: if no box header can be read the phase
is skipped; otherwise the first box must be `ftyp` with major brand `avif`
or `avis`. -/
def parseFtypPhase (r : Rdr) : Except Err Rdr := do
  match ← nextBox r with
  | none => .ok r
  | some (h, r1) =>
    if h.name = ftypCC then do
      let (ftyp, r2) ← readFtyp r1
      if ftyp.majorBrand ≠ avifCC ∧ ftyp.majorBrand ≠ avisCC then
        throw (Err.invalidData "ftyp must be \x27avif\x27 or \x27avis\x27")
      .ok r2.pop
    else
      throw (Err.invalidData "\x27ftyp\x27 box must occur first")

/-- The top-level box loop of `parse_raw`: the stop token is checked after
each box header following `ftyp`; a later `moov` that yields animation data
replaces the recorded animation data; empty `mdat` boxes are ignored. -/
def parseLoopGo (lenient : Bool) (stop : StopTok) : Nat → Rdr →
    Option AvifInternalMeta → List MdatBounds →
    Option (Nat × SampleTable × Nat) →
    Except Err ((Option AvifInternalMeta × List MdatBounds ×
      Option (Nat × SampleTable × Nat)) × Rdr)
  | 0, _, _, _, _ => .error (.invalidData "loop fuel exhausted")
  | fuel + 1, r, meta, mdats, anim => do
    match ← nextBox r with
    | none => .ok ((meta, mdats, anim), r)
    | some (h, r1) => do
      stop.check
      if h.name = metaCC then do
        if meta.isSome then
          throw (Err.invalidData "There should be zero or one meta boxes per ISO 14496-12:2015 § 8.11.1.1")
        let (m, r2) ← readAvifMeta lenient r1
        checkParserState h r2
        parseLoopGo lenient stop fuel r2.pop (some m) mdats anim
      else if h.name = moovCC then do
        let (res, r2) ← readMoov r1
        let anim := match res with
          | some (ts, stbl) => some (ts, stbl, 0)
          | none => anim
        checkParserState h r2
        parseLoopGo lenient stop fuel r2.pop meta mdats anim
      else if h.name = mdatCC then do
        let mdats := if r1.bytesLeft > 0 then
            mdats ++ [{ offset := r1.pos, length := r1.bytesLeft }]
          else mdats
        let r2 ← skipBoxContent h r1
        checkParserState h r2
        parseLoopGo lenient stop fuel r2.pop meta mdats anim
      else do
        let r2 ← skipBoxContent h r1
        checkParserState h r2
        parseLoopGo lenient stop fuel r2.pop meta mdats anim

/-- `AvifParser::parse_raw`. -/
def parseRaw (data : List Nat) (config : DecodeConfig) (stop : StopTok) :
    Except Err ParsedStructure := do
  let r : Rdr := { data := data, pos := 0, lims := [] }
  let r ← parseFtypPhase r
  let ((meta, mdats, anim), _) ←
    parseLoopGo config.lenient stop (fuelOf r) r none [] none
  match meta with
  | none => throw (Err.invalidData "missing meta")
  | some m => .ok { meta := m, mdatBounds := mdats, animationData := anim }

/-! ## Resource tracker -/

/-- Mirrors `ResourceTracker` (the config plus the running counters). -/
structure ResourceTracker where
  config : DecodeConfig
  currentMemory : Nat
  peakMemory : Nat
deriving DecidableEq, Repr

/-- `ResourceTracker::new`. -/
def ResourceTracker.new (config : DecodeConfig) : ResourceTracker :=
  { config := config, currentMemory := 0, peakMemory := 0 }

/-- `ResourceTracker::reserve` (`saturating_add` on `u64`). -/
def ResourceTracker.reserve (t : ResourceTracker) (bytes : Nat) :
    Except Err ResourceTracker :=
  let current := Nat.min (t.currentMemory + bytes) U64MAX
  let peak := Nat.max t.peakMemory current
  match t.config.peakMemoryLimit with
  | some limit =>
    if peak > limit then .error (.resourceLimitExceeded "peak memory limit exceeded")
    else .ok { t with currentMemory := current, peakMemory := peak }
  | none => .ok { t with currentMemory := current, peakMemory := peak }

/-- `ResourceTracker::release` (`saturating_sub`). -/
def ResourceTracker.release (t : ResourceTracker) (bytes : Nat) :
    ResourceTracker :=
  { t with currentMemory := t.currentMemory - bytes }

/-- `ResourceTracker::validate_total_megapixels`. -/
def validateTotalMegapixels (config : DecodeConfig) (width height : Nat) :
    Except Err Unit :=
  match config.totalMegapixelsLimit with
  | some limit =>
    if width * height ≥ U64 then .error (.invalidData "dimension overflow")
    else if width * height / 1000000 > limit then
      .error (.resourceLimitExceeded "total megapixels limit exceeded")
    else .ok ()
  | none => .ok ()

/-- `ResourceTracker::validate_animation_frames`. -/
def validateAnimationFrames (config : DecodeConfig) (count : Nat) :
    Except Err Unit :=
  match config.maxAnimationFrames with
  | some limit =>
    if count > limit then
      .error (.resourceLimitExceeded "animation frame count limit exceeded")
    else .ok ()
  | none => .ok ()

/-- `ResourceTracker::validate_grid_tiles`. -/
def validateGridTiles (config : DecodeConfig) (count : Nat) :
    Except Err Unit :=
  match config.maxGridTiles with
  | some limit =>
    if count > limit then
      .error (.resourceLimitExceeded "grid tile count limit exceeded")
    else .ok ()
  | none => .ok ()

/-! ## The legacy `MediaDataBox` extent reader -/

/-- Mirrors `MediaDataBox` (the eager API's owned copy of an mdat). -/
structure MediaDataBox where
  offset : Nat
  data : List Nat
deriving DecidableEq, Repr

/-- Rust `slice.get(s..e)`: `none` unless `s ≤ e ∧ e ≤ len`. -/
def listSlice (l : List Nat) (s e : Nat) : Option (List Nat) :=
  if s ≤ e ∧ e ≤ l.length then some ((l.drop s).take (e - s)) else none

/-- Rust `slice.get(s..)`: `none` unless `s ≤ len`. -/
def listSliceFrom (l : List Nat) (s : Nat) : Option (List Nat) :=
  if s ≤ l.length then some (l.drop s) else none

/-- `MediaDataBox::contains_extent`. -/
def MediaDataBox.containsExtent (m : MediaDataBox) (extent : ExtentRange) :
    Bool :=
  if m.offset ≤ extent.first then
    extent.first - m.offset < m.data.length
  else false

/-- `MediaDataBox::matches_extent`. -/
def MediaDataBox.matchesExtent (m : MediaDataBox) (extent : ExtentRange) :
    Bool :=
  if m.offset = extent.first then
    match extent with
    | .withLength _ stop =>
      if m.offset + m.data.length < U64 then m.offset + m.data.length = stop
      else false
    | .toEnd _ => true
  else false

/-- `MediaDataBox::read_extent`: copies the extent's bytes out of the mdat,
or fails when the extent is not fully inside the mdat's data. -/
def MediaDataBox.readExtent (m : MediaDataBox) (extent : ExtentRange)
    (buf : List Nat) : Except Err (List Nat) := do
  if extent.first < m.offset then
    throw (Err.invalidData "mdat does not contain extent")
  let startOffset := extent.first - m.offset
  let slice ← match extent with
    | .withLength start stop => do
      if stop < start then throw (Err.invalidData "range start > end")
      let rangeLen := stop - start
      if startOffset + rangeLen ≥ U64 then
        throw (Err.invalidData "extent end overflow")
      match listSlice m.data startOffset (startOffset + rangeLen) with
      | some s => pure s
      | none => throw (Err.invalidData "extent crosses box boundary")
    | .toEnd _ =>
      match listSliceFrom m.data startOffset with
      | some s => pure s
      | none => throw (Err.invalidData "extent crosses box boundary")
  .ok (buf ++ slice)

/-! ## `AvifParser` state and resolvers -/

/-- Mirrors `AnimationParserData`. -/
structure AnimationParserData where
  mediaTimescale : Nat
  sampleTable : SampleTable
  loopCount : Nat
deriving DecidableEq, Repr

/-- Mirrors `AnimationInfo`. -/
structure AnimationInfo where
  frameCount : Nat
  loopCount : Nat
deriving DecidableEq, Repr

/-- Mirrors `ItemExtents`. -/
structure ItemExtents where
  constructionMethod : ConstructionMethod
  extents : List ExtentRange
deriving DecidableEq, Repr

/-- Mirrors `Cow<[u8]>` as returned by the data-access methods: a borrowed
slice is the pair of its bounds within the backing buffer (pointer
identity), an owned buffer carries its bytes. -/
inductive CowBytes where
  | borrowed (start stop : Nat)
  | owned (bytes : List Nat)
deriving DecidableEq, Repr

/-- The byte content of a `CowBytes` relative to the buffer it borrows
from. -/
def CowBytes.bytesIn (raw : List Nat) : CowBytes → List Nat
  | .borrowed s e => (raw.drop s).take (e - s)
  | .owned bs => bs

/-- Mirrors `FrameRef` (its only fields are the payload and the duration). -/
structure FrameRef where
  data : CowBytes
  durationMs : Nat
deriving DecidableEq, Repr

/-- Mirrors `AvifParser` (the parser state after `build`). -/
structure AvifParserState where
  raw : List Nat
  mdatBounds : List MdatBounds
  idat : Option (List Nat)
  primary : ItemExtents
  alpha : Option ItemExtents
  gridConfig : Option GridConfig
  tiles : List ItemExtents
  animationData : Option AnimationParserData
  premultipliedAlpha : Bool
deriving DecidableEq, Repr

/-- The `ToEnd` search of `extent_byte_range`: the first recorded mdat whose
payload range contains the offset determines the end. -/
def findMdatEnd (fileOffset : Nat) : List MdatBounds → Option Nat
  | [] => none
  | m :: rest =>
    if m.offset ≤ fileOffset ∧ fileOffset < m.offset + m.length then
      some (m.offset + m.length)
    else findMdatEnd fileOffset rest

/-- `AvifParser::extent_byte_range`. -/
def extentByteRange (st : AvifParserState) (extent : ExtentRange) :
    Except Err (Nat × Nat) :=
  match extent with
  | .withLength start stop =>
    if stop < start then .error (.invalidData "extent range start > end")
    else if start + (stop - start) ≥ U64 then
      .error (.invalidData "extent end overflow")
    else .ok (start, start + (stop - start))
  | .toEnd start =>
    match findMdatEnd start st.mdatBounds with
    | some stop => .ok (start, stop)
    | none => .ok (start, st.raw.length)

/-- The multi-extent concatenation loop of `resolve_file_extents`. -/
def resolveFileConcat (st : AvifParserState) :
    List ExtentRange → List Nat → Except Err (List Nat)
  | [], acc => .ok acc
  | extent :: rest, acc => do
    let (start, stop) ← extentByteRange st extent
    match listSlice st.raw start stop with
    | some slice => resolveFileConcat st rest (acc ++ slice)
    | none => throw (Err.invalidData "extent out of bounds in raw buffer")

/-- Spec-side definition (follows the specification's wording, for
comparison with `resolveFileConcat`): the slice of the raw buffer denoted
by each extent, in declaration order. -/
def extentSlicesSpec (st : AvifParserState) :
    List ExtentRange → Except Err (List (List Nat))
  | [] => .ok []
  | extent :: rest => do
    let (start, stop) ← extentByteRange st extent
    match listSlice st.raw start stop with
    | some slice => do
      let tail ← extentSlicesSpec st rest
      .ok (slice :: tail)
    | none => throw (Err.invalidData "extent out of bounds in raw buffer")

/-- `AvifParser::resolve_file_extents`. -/
def resolveFileExtents (st : AvifParserState) (extents : List ExtentRange) :
    Except Err CowBytes :=
  if extents.length = 1 then
    match extents.head? with
    | some extent =>
      match extentByteRange st extent with
      | .error e => .error e
      | .ok (start, stop) =>
        match listSlice st.raw start stop with
        | some _ => .ok (.borrowed start stop)
        | none => .error (.invalidData "extent out of bounds in raw buffer")
    | none => .error (.invalidData "extent out of bounds in raw buffer")
  else
    (resolveFileConcat st extents []).map .owned

/-- The slice lookup of one idat extent (`range.end - range.start` is an
unchecked `u64` subtraction; parsed extents always satisfy `end ≥ start`). -/
def idatExtentSlice (idatData : List Nat) (extent : ExtentRange) :
    Except Err (List Nat) :=
  match extent with
  | .withLength start stop =>
    match listSlice idatData start (start + (stop - start)) with
    | some s => .ok s
    | none => .error (.invalidData "idat extent out of bounds")
  | .toEnd start =>
    match listSliceFrom idatData start with
    | some s => .ok s
    | none => .error (.invalidData "idat extent out of bounds")

/-- The multi-extent loop of `resolve_idat_extents`. -/
def resolveIdatConcat (idatData : List Nat) :
    List ExtentRange → List Nat → Except Err (List Nat)
  | [], acc => .ok acc
  | extent :: rest, acc => do
    let slice ← idatExtentSlice idatData extent
    resolveIdatConcat idatData rest (acc ++ slice)

/-- `AvifParser::resolve_idat_extents`. -/
def resolveIdatExtents (st : AvifParserState) (extents : List ExtentRange) :
    Except Err CowBytes := do
  let idatData ← match st.idat with
    | some d => pure d
    | none => throw (Err.invalidData "idat box missing but construction_method is Idat")
  if extents.length = 1 then
    match extents.head? with
    | some extent => do
      let slice ← idatExtentSlice idatData extent
      match extent with
      | .withLength start stop => .ok (.borrowed start (start + (stop - start)))
      | .toEnd start => .ok (.borrowed start idatData.length)
    | none => throw (Err.invalidData "idat extent out of bounds")
  else
    (resolveIdatConcat idatData extents []).map .owned

/-- `AvifParser::resolve_item`. -/
def resolveItem (st : AvifParserState) (item : ItemExtents) :
    Except Err CowBytes :=
  match item.constructionMethod with
  | .idat => resolveIdatExtents st item.extents
  | .file => resolveFileExtents st item.extents
  | .item => .error (.unsupported "construction_method \x27item\x27 not supported")

/-- `AvifParser::calculate_frame_duration` (truncated to `u32`; always
`Ok` in the source). -/
def calcFrameDurationGo (timescale index : Nat) :
    List TimeToSampleEntry → Nat → Nat
  | [], _ => 0
  | e :: rest, cur =>
    if cur + e.sampleCount > index then
      (if timescale > 0 then e.sampleDelta * 1000 / timescale else 0) % 2 ^ 32
    else calcFrameDurationGo timescale index rest (cur + e.sampleCount)

/-- `AvifParser::calculate_frame_duration`. -/
def calcFrameDuration (table : SampleTable) (timescale index : Nat) : Nat :=
  calcFrameDurationGo timescale index table.timeToSample 0

/-- Intra-chunk prefix sum of `calculate_sample_location` (missing indices
contribute nothing). -/
def offsetInChunk (sizes : List Nat) (cur sampleInChunk : Nat) : Nat :=
  (List.range sampleInChunk).foldl
    (fun acc s => acc + ((sizes.get? (cur - (sampleInChunk - s))).getD 0)) 0

/-- The per-chunk sample loop of `calculate_sample_location`: stop with the
offset when `cur` reaches the target index. -/
def samplesInChunkLoop (sizes : List Nat) (index chunkOffset : Nat) :
    Nat → Nat → Nat → Option Nat × Nat
  | 0, _, cur => (none, cur)
  | n + 1, sampleInChunk, cur =>
    if cur = index then
      (some (chunkOffset + offsetInChunk sizes cur sampleInChunk), cur)
    else samplesInChunkLoop sizes index chunkOffset n (sampleInChunk + 1)
      (cur + 1)

/-- The chunk loop of `calculate_sample_location` (iterates chunk indices
from `first_chunk` up to the next entry's `first_chunk`, breaking on index
0 or past the chunk-offset table). -/
def chunksLoop (table : SampleTable) (index samplesPerChunk : Nat) :
    Nat → Nat → Nat → Option Nat × Nat
  | 0, _, cur => (none, cur)
  | n + 1, chunkIdx, cur =>
    if chunkIdx = 0 ∨ chunkIdx > table.chunkOffsets.length then (none, cur)
    else
      let chunkOffset := (table.chunkOffsets.get? (chunkIdx - 1)).getD 0
      match samplesInChunkLoop table.sampleSizes index chunkOffset
        samplesPerChunk 0 cur with
      | (some off, cur) => (some off, cur)
      | (none, cur) => chunksLoop table index samplesPerChunk n (chunkIdx + 1)
          cur

/-- The entry loop of `calculate_sample_location` (the entry owns chunks up
to the following entry's `first_chunk`, `u32::MAX` for the last). -/
def sampleLocEntries (table : SampleTable) (index : Nat) :
    List SampleToChunkEntry → Nat → Option Nat
  | [], _ => none
  | e :: rest, cur =>
    let nextFirstChunk := ((rest.head?.map (fun n => n.firstChunk)).getD U32MAX)
    match chunksLoop table index e.samplesPerChunk
      (nextFirstChunk - e.firstChunk) e.firstChunk cur with
    | (some off, _) => some off
    | (none, cur) => sampleLocEntries table index rest cur

/-- `AvifParser::calculate_sample_location`. -/
def calcSampleLocation (table : SampleTable) (index : Nat) :
    Except Err (Nat × Nat) := do
  let sampleSize ← match table.sampleSizes.get? index with
    | some s => pure s
    | none => throw (Err.invalidData "sample index out of bounds")
  match sampleLocEntries table index table.sampleToChunk 0 with
  | some off => .ok (off, sampleSize)
  | none => throw (Err.invalidData "sample not found in chunk table")

/-- `AvifParser::resolve_frame`. -/
def resolveFrame (st : AvifParserState) (index : Nat) :
    Except Err FrameRef := do
  let anim ← match st.animationData with
    | some a => pure a
    | none => throw (Err.invalidData "not an animated AVIF")
  if index ≥ anim.sampleTable.sampleSizes.length then
    throw (Err.invalidData "frame index out of bounds")
  let durationMs := calcFrameDuration anim.sampleTable anim.mediaTimescale
    index
  let (offset, size) ← calcSampleLocation anim.sampleTable index
  if offset + size ≥ U64 then throw (Err.invalidData "frame end overflow")
  match listSlice st.raw offset (offset + size) with
  | some _ => .ok (FrameRef.mk (.borrowed offset (offset + size)) durationMs)
  | none => throw (Err.invalidData "frame not found in raw buffer")

/-! ## `AvifParser::build` and the public API -/

/-- `AvifParser::get_item_extents`. -/
def getItemExtents (meta : AvifInternalMeta) (itemId : Nat) :
    Except Err ItemExtents :=
  match meta.ilocItems.find? (fun item => item.itemId = itemId) with
  | none => .error (.invalidData "item not found in iloc")
  | some item =>
    .ok (ItemExtents.mk item.constructionMethod
      (item.extents.map (fun e => e.extentRange)))

/-- ASCII bytes of a string. -/
def asciiBytes (s : String) : List Nat := s.data.map (fun c => c.toNat)

/-- The alpha auxiliary URN. -/
def urnAlpha : List Nat :=
  asciiBytes "urn:mpeg:mpegB:cicp:systems:auxiliary:alpha"

/-- `AuxiliaryTypeProperty::type_subtype().0`: the bytes up to the first
NUL. -/
def auxType (auxData : List Nat) : List Nat :=
  auxData.takeWhile (fun b => b ≠ 0)

/-- The alpha-item search of `build` (and of the eager API): an `auxl`
reference onto the primary item whose owner carries the alpha `auxC`
URN. -/
def findAlphaItemId (meta : AvifInternalMeta) : Option Nat :=
  ((meta.itemReferences.filter (fun ir =>
      ir.toItemId = meta.primaryItemId ∧
      ir.fromItemId ≠ meta.primaryItemId ∧
      ir.itemType = auxlCC)).map (fun ir => ir.fromItemId)).find?
    (fun itemId => meta.properties.any (fun prop =>
      prop.itemId == itemId &&
      match prop.property with
      | .auxiliaryType urn => auxType urn == urnAlpha
      | _ => false))

/-- The `prem` check of `build`. -/
def findPremultiplied (meta : AvifInternalMeta) (alphaId : Nat) : Bool :=
  meta.itemReferences.any (fun ir =>
    ir.fromItemId = meta.primaryItemId ∧ ir.toItemId = alphaId ∧
    ir.itemType = premCC)

/-- Whether the primary item's `iinf` entry is a `grid`. -/
def primaryIsGrid (meta : AvifInternalMeta) : Bool :=
  match meta.itemInfos.find? (fun x => x.itemId = meta.primaryItemId) with
  | some info => info.itemType = gridCC
  | none => false

/-- The `dimg` collection of `build`: `(to_item_id, reference_index)` pairs
whose `from` is the primary item, in declaration order. -/
def dimgTiles (meta : AvifInternalMeta) : List (Nat × Nat) :=
  (meta.itemReferences.filter (fun ir =>
    ir.fromItemId = meta.primaryItemId ∧ ir.itemType = dimgCC)).map
    (fun ir => (ir.toItemId, ir.referenceIndex))

/-- `sort_by_key(reference_index)`: Rust's sort is stable, and the output of
a stable sort is unique, so the stable `List.insertionSort` computes the
same list. -/
def sortTiles (tiles : List (Nat × Nat)) : List (Nat × Nat) :=
  tiles.insertionSort (fun a b => a.2 ≤ b.2)

/-- The tile-extent collection loop of `build`. -/
def collectTileExtents (meta : AvifInternalMeta) :
    List Nat → Except Err (List ItemExtents)
  | [] => .ok []
  | tileId :: rest => do
    let e ← getItemExtents meta tileId
    let tail ← collectTileExtents meta rest
    .ok (e :: tail)

/-- `AvifParser::calculate_grid_config` (a `Result` in the source whose
every path returns `Ok`). -/
def calculateGridConfig (meta : AvifInternalMeta) (tileIds : List Nat) :
    GridConfig :=
  let explicit := meta.properties.findSome? (fun prop =>
    if prop.itemId = meta.primaryItemId then
      match prop.property with
      | .imageGrid g => some g
      | _ => none
    else none)
  match explicit with
  | some g => g
  | none =>
    let gridDims := (meta.properties.find? (fun p =>
      p.itemId = meta.primaryItemId)).bind (fun p =>
        match p.property with
        | .imageSpatialExtents e => some e
        | _ => none)
    let tileDims := tileIds.head?.bind (fun tileId =>
      (meta.properties.find? (fun p => p.itemId = tileId)).bind (fun p =>
        match p.property with
        | .imageSpatialExtents e => some e
        | _ => none))
    let fallback : GridConfig :=
      GridConfig.mk (Nat.min tileIds.length 255) 1 0 0
    match gridDims, tileDims with
    | some grid, some tile =>
      if tile.width ≠ 0 ∧ tile.height ≠ 0 ∧ grid.width % tile.width = 0 ∧
          grid.height % tile.height = 0 then
        let columns := grid.width / tile.width
        let rows := grid.height / tile.height
        if columns ≤ 255 ∧ rows ≤ 255 then
          GridConfig.mk rows columns grid.width grid.height
        else fallback
      else fallback
    | _, _ => fallback

/-- `AvifParser::build`. -/
def build (raw : List Nat) (parsed : ParsedStructure)
    (config : DecodeConfig) : Except Err AvifParserState := do
  let meta := parsed.meta
  let primary ← getItemExtents meta meta.primaryItemId
  let alphaItemId := findAlphaItemId meta
  let alpha ← match alphaItemId with
    | some id => do
      let e ← getItemExtents meta id
      pure (some e)
    | none => pure none
  let premultipliedAlpha := match alphaItemId with
    | some alphaId => findPremultiplied meta alphaId
    | none => false
  let (gridConfig, tiles) ←
    if primaryIsGrid meta then do
      let tilesWithIndex := dimgTiles meta
      validateGridTiles config tilesWithIndex.length
      let sorted := sortTiles tilesWithIndex
      let tileIds := sorted.map (fun t => t.1)
      let tileExtents ← collectTileExtents meta tileIds
      pure (some (calculateGridConfig meta tileIds), tileExtents)
    else pure (none, [])
  let animationData ← match parsed.animationData with
    | some (mediaTimescale, sampleTable, loopCount) => do
      validateAnimationFrames config sampleTable.sampleSizes.length
      pure (some (AnimationParserData.mk mediaTimescale sampleTable loopCount))
    | none => pure none
  .ok (AvifParserState.mk raw parsed.mdatBounds meta.idat primary alpha
    gridConfig tiles animationData premultipliedAlpha)

/-- `AvifParser::from_bytes_with_config` (parse pass plus build). -/
def fromBytesWithConfig (data : List Nat) (config : DecodeConfig)
    (stop : StopTok) : Except Err AvifParserState := do
  let parsed ← parseRaw data config stop
  build data parsed config

/-- `AvifParser::from_bytes` (unlimited config, `Unstoppable`). -/
def fromBytes (data : List Nat) : Except Err AvifParserState :=
  fromBytesWithConfig data DecodeConfig.unlimited .unstoppable

/-- `AvifParser::primary_data`. -/
def primaryData (st : AvifParserState) : Except Err CowBytes :=
  resolveItem st st.primary

/-- `AvifParser::alpha_data`. -/
def alphaData (st : AvifParserState) : Option (Except Err CowBytes) :=
  st.alpha.map (fun item => resolveItem st item)

/-- `AvifParser::tile_data`. -/
def tileData (st : AvifParserState) (index : Nat) : Except Err CowBytes :=
  match st.tiles.get? index with
  | none => .error (.invalidData "tile index out of bounds")
  | some item => resolveItem st item

/-- `AvifParser::frame`. -/
def frame (st : AvifParserState) (index : Nat) : Except Err FrameRef :=
  resolveFrame st index

/-- `AvifParser::animation_info`. -/
def animationInfo (st : AvifParserState) : Option AnimationInfo :=
  st.animationData.map (fun d =>
    AnimationInfo.mk d.sampleTable.sampleSizes.length d.loopCount)

/-- `AvifParser::grid_tile_count`. -/
def gridTileCount (st : AvifParserState) : Nat := st.tiles.length

/-! ## Concrete input files (big-endian byte builders) -/

/-- Big-endian 16-bit bytes. -/
def u16be (n : Nat) : List Nat := [n / 256 % 256, n % 256]

/-- Big-endian 32-bit bytes. -/
def u32be (n : Nat) : List Nat :=
  [n / 2 ^ 24 % 256, n / 2 ^ 16 % 256, n / 2 ^ 8 % 256, n % 256]

/-- A box with a 32-bit size header. -/
def mkBox (ty : Nat) (content : List Nat) : List Nat :=
  u32be (content.length + 8) ++ u32be ty ++ content

/-- Version-0 fullbox prefix with zero flags. -/
def fb0 : List Nat := [0, 0, 0, 0]

/-- An `ftyp` box with major brand `avif` and no compatible brands. -/
def ftypBox : List Nat := mkBox ftypCC (u32be avifCC ++ u32be 0)

/-- A `pitm` (version 0) designating item 1. -/
def pitmBox : List Nat := mkBox pitmCC (fb0 ++ u16be 1)

/-- An `infe` (version 2) for item 1 of type `av01`. -/
def infeBox : List Nat :=
  mkBox infeCC ([2, 0, 0, 0] ++ u16be 1 ++ u16be 0 ++ u32be av01CC)

/-- An `iinf` holding that single `infe`. -/
def iinfBox : List Nat := mkBox iinfCC (fb0 ++ u16be 1 ++ infeBox)

/-- A version-0 `iloc` for item 1 with one 32-bit extent
`[extOff, extOff+extLen)` (or to-end when `extLen = 0`). -/
def ilocBox (extOff extLen : Nat) : List Nat :=
  mkBox ilocCC (fb0 ++ [0x44, 0x00] ++ u16be 1 ++ u16be 1 ++ u16be 0 ++
    u16be 1 ++ u32be extOff ++ u32be extLen)

/-- A minimal valid `meta` box (pitm + iinf + iloc). -/
def metaBox (extOff extLen : Nat) : List Nat :=
  mkBox metaCC (fb0 ++ pitmBox ++ iinfBox ++ ilocBox extOff extLen)

/-- An `mdhd` (version 0) with the given timescale. -/
def mdhdBox (ts : Nat) : List Nat :=
  mkBox mdhdCC (fb0 ++ u32be 0 ++ u32be 0 ++ u32be ts ++ u32be 0)

/-- An `elst` (version 0, the given flags) with one entry. -/
def elstBox (flags : Nat) : List Nat :=
  mkBox elstCC ([0, flags / 65536 % 256, flags / 256 % 256, flags % 256] ++
    u32be 1 ++ u32be 100 ++ u32be 0 ++ u16be 1 ++ u16be 0)

/-- An `edts` wrapping that `elst`. -/
def edtsBox (flags : Nat) : List Nat := mkBox edtsCC (elstBox flags)

/-- An `stts` with one `(count, delta)` entry. -/
def sttsBox (count delta : Nat) : List Nat :=
  mkBox sttsCC (fb0 ++ u32be 1 ++ u32be count ++ u32be delta)

/-- An `stsc` with one `(first_chunk, samples_per_chunk, sdi)` entry. -/
def stscBox (firstChunk spc : Nat) : List Nat :=
  mkBox stscCC (fb0 ++ u32be 1 ++ u32be firstChunk ++ u32be spc ++ u32be 1)

/-- An `stsz` with a default sample size for `count` samples. -/
def stszBox (size count : Nat) : List Nat :=
  mkBox stszCC (fb0 ++ u32be size ++ u32be count)

/-- An `stco` with one chunk offset. -/
def stcoBox (off : Nat) : List Nat := mkBox stcoCC (fb0 ++ u32be 1 ++ u32be off)

/-- An `stbl` with a one-sample table. -/
def stblBox (delta size off : Nat) : List Nat :=
  mkBox stblCC (sttsBox 1 delta ++ stscBox 1 1 ++ stszBox size 1 ++
    stcoBox off)

/-- An empty `stbl` (yields a sample table with empty records). -/
def stblBoxEmpty : List Nat := mkBox stblCC []

/-- `minf` wrapping an `stbl`. -/
def minfBox (stbl : List Nat) : List Nat := mkBox minfCC stbl

/-- `mdia` with an `mdhd` timescale and a `minf`. -/
def mdiaBox (ts : Nat) (stbl : List Nat) : List Nat :=
  mkBox mdiaCC (mdhdBox ts ++ minfBox stbl)

/-- A `trak` with optional leading boxes (e.g. `edts`) before its `mdia`. -/
def trakBox (pre : List Nat) (ts : Nat) (stbl : List Nat) : List Nat :=
  mkBox trakCC (pre ++ mdiaBox ts stbl)

/-- A `moov` with the given tracks. -/
def moovBox (traks : List Nat) : List Nat := mkBox moovCC traks

/-- An `mdat` with the given payload. -/
def mdatBox (payload : List Nat) : List Nat := mkBox mdatCC payload

/-- A file with a valid `ftyp` and `meta` followed by two `moov` boxes whose
tracks carry different `mdhd` timescales (7, then 9). -/
def twoMoovFile : List Nat :=
  ftypBox ++ metaBox 0 1 ++ moovBox (trakBox [] 7 stblBoxEmpty) ++
    moovBox (trakBox [] 9 stblBoxEmpty)

/-- A file with one `moov` holding two tracks (timescales 7, then 9). -/
def oneMoovFile : List Nat :=
  ftypBox ++ metaBox 0 1 ++
    moovBox (trakBox [] 7 stblBoxEmpty ++ trakBox [] 9 stblBoxEmpty)

/-- An `ftyp` with major brand `avis` (animated). -/
def ftypAvisBox : List Nat := mkBox ftypCC (u32be avisCC ++ u32be 0)

/-- Offset of the first mdat payload in `c2File`. -/
def c2Off : Nat := ftypBox.length + (metaBox 0 0).length + 8

/-- A file whose primary item's single extent `[c2Off, c2Off + 8)` starts in
the first mdat payload (4 bytes) and crosses its end into the second mdat's
header. -/
def c2File : List Nat :=
  ftypBox ++ metaBox c2Off 8 ++ mdatBox [1, 2, 3, 4] ++ mdatBox [5, 6, 7, 8]

/-- Offset of the frame payload in `c3File`. -/
def c3Off : Nat := ftypAvisBox.length + (metaBox 0 0).length + 8

/-- An animated file whose track carries an `edts`/`elst` with flags = 0
(play once, per the elst convention), a timescale of 10, and one 4-byte
sample. -/
def c3File : List Nat :=
  ftypAvisBox ++ metaBox 0 1 ++ mdatBox [10, 20, 30, 40] ++
    moovBox (trakBox (edtsBox 0) 10 (stblBox 1 4 c3Off))

/-- A `tref` box with an `auxl` reference onto track 1. -/
def trefAuxlBox : List Nat := mkBox trefCC (mkBox auxlCC (u32be 1))

/-- Offset of the color frame payload in `c4File`. -/
def c4Off : Nat := ftypAvisBox.length + (metaBox 0 0).length + 8

/-- An animated file with a color track (timescale 10, one 4-byte sample at
`c4Off`) followed by an auxiliary track carrying a `tref`/`auxl` reference
onto it (timescale 9, one 4-byte sample at `c4Off + 4`). -/
def c4File : List Nat :=
  ftypAvisBox ++ metaBox 0 1 ++
    mdatBox [1, 2, 3, 4, 5, 6, 7, 8] ++
    moovBox (trakBox [] 10 (stblBox 1 4 c4Off) ++
      trakBox trefAuxlBox 9 (stblBox 1 4 (c4Off + 4)))

/-- An `iinf` with two items: item 1 of type `grid`, item 2 of type
`av01`. -/
def iinfGridBox : List Nat :=
  mkBox iinfCC (fb0 ++ u16be 2 ++
    mkBox infeCC ([2, 0, 0, 0] ++ u16be 1 ++ u16be 0 ++ u32be gridCC) ++
    mkBox infeCC ([2, 0, 0, 0] ++ u16be 2 ++ u16be 0 ++ u32be av01CC))

/-- A version-0 `iloc` with one 32-bit extent for each of items 1 and 2. -/
def ilocTwoBox : List Nat :=
  mkBox ilocCC (fb0 ++ [0x44, 0x00] ++ u16be 2 ++
    (u16be 1 ++ u16be 0 ++ u16be 1 ++ u32be 0 ++ u32be 1) ++
    (u16be 2 ++ u16be 0 ++ u16be 1 ++ u32be 1 ++ u32be 1))

/-- An `iref` (version 0) with a single `dimg` reference from item 1 to
item 2. -/
def irefDimgBox : List Nat :=
  mkBox irefCC (fb0 ++ mkBox dimgCC (u16be 1 ++ u16be 1 ++ u16be 2))

/-- An `ipco` whose only property is an explicit 2-by-2 `grid` with 16-bit
output dimensions 64 by 64, and an `ipma` associating it with item 1. -/
def iprpGridBox : List Nat :=
  mkBox iprpCC (
    mkBox ipcoCC (mkBox gridCC (fb0 ++ [0, 2, 2] ++ u16be 64 ++ u16be 64)) ++
    mkBox ipmaCC (fb0 ++ u32be 1 ++ u16be 1 ++ [1] ++ [0x01]))

/-- A grid file whose primary item has an explicit 2-by-2 `ImageGrid`
property but only one `dimg` tile reference. -/
def c8File : List Nat :=
  ftypBox ++
    mkBox metaCC (fb0 ++ pitmBox ++ iinfGridBox ++ ilocTwoBox ++
      irefDimgBox ++ iprpGridBox)

/-- A file with a valid `ftyp` and minimal `meta` and nothing else. -/
def smallValidFile : List Nat := ftypBox ++ metaBox 0 1

/-- `DecodeConfig::default().with_peak_memory_limit(1000)`. -/
def cfg1000 : DecodeConfig :=
  { DecodeConfig.default with peakMemoryLimit := some 1000 }

/-- An `iloc` body (after the version byte) whose field sizes and zero item
count occupy four bytes, followed by one unread trailing byte. -/
def ilocLeftoverBytes : List Nat := [0x44, 0x00, 0x00, 0x00, 0x00]

/-- A file with a valid `ftyp`, `meta`, and a single `moov` whose track has
timescale 7. -/
def oneMoov7File : List Nat :=
  ftypBox ++ metaBox 0 1 ++ moovBox (trakBox [] 7 stblBoxEmpty)

/-- A sample table with no entries. -/
def emptyTable : SampleTable := SampleTable.mk [] [] [] []

/-- A parser state over a 10-byte buffer: a single-extent `[2, 5)` primary,
one two-extent tile, and a one-frame animation (timescale 10, delta 10, one
3-byte sample in the chunk at offset 5). -/
def c1State : AvifParserState :=
  AvifParserState.mk [0, 1, 2, 3, 4, 5, 6, 7, 8, 9] [] none
    (ItemExtents.mk .file [.withLength 2 5]) none none
    [ItemExtents.mk .file [.withLength 0 2, .withLength 4 6]]
    (some (AnimationParserData.mk 10
      (SampleTable.mk [TimeToSampleEntry.mk 1 10] [SampleToChunkEntry.mk 1 1 1]
        [3] [5]) 0))
    false

/-- The structure-level counterpart of `c8File`: primary grid item 1 with an
explicit 2-by-2 `ImageGrid` property and a single `dimg` tile. -/
def c8Meta : AvifInternalMeta :=
  AvifInternalMeta.mk [SingleItemTypeReferenceBox.mk dimgCC 1 2 0]
    [AssociatedProperty.mk 1 (.imageGrid (GridConfig.mk 2 2 64 64))] 1
    [ItemLocationBoxItem.mk 1 .file [ItemLocationBoxExtent.mk (.withLength 0 1)],
     ItemLocationBoxItem.mk 2 .file [ItemLocationBoxExtent.mk (.withLength 1 2)]]
    [ItemInfoEntry.mk 1 gridCC, ItemInfoEntry.mk 2 av01CC] none

/-- `c8Meta` packaged as a parse result. -/
def c8Parsed : ParsedStructure := ParsedStructure.mk c8Meta [] none

/-- The parser state `build` produces from `c8Parsed` over a 3-byte raw
buffer. -/
def c8State : AvifParserState :=
  AvifParserState.mk [0, 1, 2] [] none
    (ItemExtents.mk .file [.withLength 0 1]) none
    (some (GridConfig.mk 2 2 64 64)) [ItemExtents.mk .file [.withLength 1 2]]
    none false

/-! ## Helper lemmas -/

set_option maxRecDepth 1000000

/-- A reader that cannot deliver 4 bytes yields no box header. -/
theorem nextBox_eof (r : Rdr) (h : r.avail < 4) : nextBox r = .ok none := by
  simp [nextBox, readBoxHeader, beU32, readExact, Nat.not_le.mpr h, Bind.bind,
    Except.bind]

/-- A successful Rust-style slice lookup certifies its bounds. -/
theorem listSlice_some (l : List Nat) (s e : Nat) (sl : List Nat)
    (h : listSlice l s e = some sl) : s ≤ e ∧ e ≤ l.length := by
  by_cases hc : s ≤ e ∧ e ≤ l.length
  · exact hc
  · simp [listSlice, hc] at h

/-- The concatenation loop of `resolve_file_extents` produces exactly the
flattened per-extent slices, appended to the accumulator. -/
theorem resolveFileConcat_spec (st : AvifParserState) :
    ∀ (extents : List ExtentRange) (acc bs : List Nat),
      resolveFileConcat st extents acc = .ok bs →
      ∃ slices, extentSlicesSpec st extents = .ok slices ∧
        bs = acc ++ slices.flatten := by
  intro extents
  induction extents with
  | nil =>
    intro acc bs hres
    simp [resolveFileConcat] at hres
    exact ⟨[], by simp [extentSlicesSpec], by simp [hres]⟩
  | cons extent rest ih =>
    intro acc bs hres
    simp only [resolveFileConcat, Bind.bind, Except.bind] at hres
    cases hbr : extentByteRange st extent with
    | error e => rw [hbr] at hres; cases hres
    | ok p =>
      rw [hbr] at hres
      obtain ⟨start, stop⟩ := p
      cases hsl : listSlice st.raw start stop with
      | none => simp [hsl] at hres
      | some slice =>
        simp only [hsl] at hres
        obtain ⟨slices, hspec, hbs⟩ := ih (acc ++ slice) bs hres
        refine ⟨slice :: slices, ?_, ?_⟩
        · simp [extentSlicesSpec, Bind.bind, Except.bind, hbr, hsl, hspec]
        · simp [hbs]

/-- The tile-extent loop of `build` keeps one entry per tile id. -/
theorem collectTileExtents_length (meta : AvifInternalMeta) :
    ∀ (ids : List Nat) (exts : List ItemExtents),
      collectTileExtents meta ids = .ok exts → exts.length = ids.length := by
  intro ids
  induction ids with
  | nil => intro exts h; simp [collectTileExtents] at h; simp [← h]
  | cons id rest ih =>
    intro exts h
    simp only [collectTileExtents, Bind.bind, Except.bind] at h
    cases hg : getItemExtents meta id with
    | error e => rw [hg] at h; cases h
    | ok e =>
      rw [hg] at h
      cases ht : collectTileExtents meta rest with
      | error e2 => rw [ht] at h; cases h
      | ok tail =>
        rw [ht] at h
        simp only [pure, Except.pure] at h
        cases h
        simp [ih tail ht]

/-- The sorted tile list is ascending in `reference_index`. -/
theorem sortTiles_sorted (tiles : List (Nat × Nat)) :
    List.Sorted (· ≤ ·) ((sortTiles tiles).map (fun t => t.2)) := by
  haveI : IsTotal (Nat × Nat) (fun a b => a.2 ≤ b.2) :=
    ⟨fun a b => Nat.le_total a.2 b.2⟩
  haveI : IsTrans (Nat × Nat) (fun a b => a.2 ≤ b.2) :=
    ⟨fun a b c hab hbc => Nat.le_trans hab hbc⟩
  have h := List.sorted_insertionSort (fun a b : Nat × Nat => a.2 ≤ b.2) tiles
  rw [List.Sorted, List.pairwise_map]
  exact h

/-- Sorting the tiles keeps their number. -/
theorem sortTiles_length (tiles : List (Nat × Nat)) :
    (sortTiles tiles).length = tiles.length := by
  simp [sortTiles, List.length_insertionSort]

/-! ## Claims -/

/-- Claim C1: resolving an item whose location is a single File-constructed
extent yields a borrowed slice whose bounds lie inside the source buffer;
resolving an item with several File extents yields an owned buffer equal to
the concatenation of the per-extent slices in declaration order; and every
successfully resolved animation frame is a borrowed slice whose bounds lie
inside the source buffer. -/
theorem C1_resolution :
    (∀ (st : AvifParserState) (item : ItemExtents) (res : CowBytes),
      item.constructionMethod = .file → item.extents.length = 1 →
      resolveItem st item = .ok res →
      ∃ s e, res = .borrowed s e ∧ s ≤ e ∧ e ≤ st.raw.length) ∧
    (∀ (st : AvifParserState) (item : ItemExtents) (res : CowBytes),
      item.constructionMethod = .file → 1 < item.extents.length →
      resolveItem st item = .ok res →
      ∃ slices, extentSlicesSpec st item.extents = .ok slices ∧
        res = .owned slices.flatten) ∧
    (∀ (st : AvifParserState) (index : Nat) (fr : FrameRef),
      frame st index = .ok fr →
      ∃ s e, fr.data = .borrowed s e ∧ s ≤ e ∧ e ≤ st.raw.length) := by
  refine ⟨?_, ?_, ?_⟩
  · intro st item res hc hlen hres
    simp only [resolveItem, hc] at hres
    match hext : item.extents, hlen with
    | [extent], _ =>
      rw [hext] at hres
      simp only [resolveFileExtents, List.length_singleton, if_pos rfl,
        List.head?] at hres
      cases hbr : extentByteRange st extent with
      | error e => rw [hbr] at hres; cases hres
      | ok p =>
        rw [hbr] at hres
        obtain ⟨start, stop⟩ := p
        cases hsl : listSlice st.raw start stop with
        | none => simp [hsl] at hres
        | some slice =>
          simp only [hsl] at hres
          cases hres
          obtain ⟨h1, h2⟩ := listSlice_some _ _ _ _ hsl
          exact ⟨start, stop, rfl, h1, h2⟩
  · intro st item res hc hlen hres
    simp only [resolveItem, hc] at hres
    have hne : item.extents.length ≠ 1 := by omega
    simp only [resolveFileExtents, if_neg hne, Except.map] at hres
    cases hcc : resolveFileConcat st item.extents [] with
    | error e => rw [hcc] at hres; cases hres
    | ok bs =>
      rw [hcc] at hres
      cases hres
      obtain ⟨slices, hspec, hbs⟩ :=
        resolveFileConcat_spec st item.extents [] bs hcc
      exact ⟨slices, hspec, by simp [hbs]⟩
  · intro st index fr hres
    simp only [frame, resolveFrame, Bind.bind, Except.bind, pure,
      Except.pure] at hres
    cases hanim : st.animationData with
    | none => simp [hanim, throw, throwThe, MonadExceptOf.throw] at hres
    | some anim =>
      simp only [hanim] at hres
      by_cases hidx : anim.sampleTable.sampleSizes.length ≤ index
      · simp [hidx, throw, throwThe, MonadExceptOf.throw] at hres
      · simp only [if_neg hidx] at hres
        cases hloc : calcSampleLocation anim.sampleTable index with
        | error e => rw [hloc] at hres; cases hres
        | ok p =>
          rw [hloc] at hres
          obtain ⟨off, size⟩ := p
          by_cases hov : U64 ≤ off + size
          · simp [hov, throw, throwThe, MonadExceptOf.throw] at hres
          · simp only [if_neg hov] at hres
            cases hsl : listSlice st.raw off (off + size) with
            | none => simp [hsl, throw, throwThe, MonadExceptOf.throw] at hres
            | some slice =>
              simp only [hsl] at hres
              cases hres
              obtain ⟨h1, h2⟩ := listSlice_some _ _ _ _ hsl
              exact ⟨off, off + size, rfl, Nat.le_add_right _ _, h2⟩

/-- Witness for C1 at concrete inputs: the single-extent primary of
`c1State` resolves to the borrowed slice `[2, 5)`, its two-extent tile to
the owned concatenation `[0, 1, 4, 5]`, and frame 0 to the borrowed slice
`[5, 8)`. -/
theorem C1_witness :
    (∃ s e, CowBytes.borrowed 2 5 = CowBytes.borrowed s e ∧ s ≤ e ∧
      e ≤ c1State.raw.length) ∧
    (∃ slices, extentSlicesSpec c1State
        (ItemExtents.mk .file [.withLength 0 2, .withLength 4 6]).extents =
        .ok slices ∧
      CowBytes.owned [0, 1, 4, 5] = .owned slices.flatten) ∧
    (∃ s e, (FrameRef.mk (.borrowed 5 8) 1000).data = CowBytes.borrowed s e ∧
      s ≤ e ∧ e ≤ c1State.raw.length) :=
  ⟨C1_resolution.1 c1State c1State.primary (.borrowed 2 5) rfl (by decide)
    (by decide),
   C1_resolution.2.1 c1State
    (ItemExtents.mk .file [.withLength 0 2, .withLength 4 6])
    (.owned [0, 1, 4, 5]) rfl (by decide) (by decide),
   C1_resolution.2.2 c1State 0 (FrameRef.mk (.borrowed 5 8) 1000) (by decide)⟩

/-- Claim C2 counterexample: in `c2File` the primary item's only extent
`[114, 122)` starts inside the first mdat payload `[114, 118)` and crosses
its end (122 > 118, and 122 does not reach the second mdat payload at 126),
yet `primary_data()` succeeds with a borrowed slice instead of failing with
`InvalidData`. -/
theorem C2_counterexample :
    (fromBytes c2File).map (fun st => (primaryData st, st.mdatBounds)) =
      .ok (.ok (.borrowed 114 122),
        [MdatBounds.mk 114 4, MdatBounds.mk 126 4]) ∧
    114 + 4 < 122 ∧ 122 < 126 := by decide

/-- Claim C2 (amended): mdat containment of extents is enforced only in the
legacy eager path. `MediaDataBox::read_extent` fails with
`InvalidData("mdat does not contain extent")` when the extent starts before
the mdat, and with `InvalidData("extent crosses box boundary")` when the
extent starts inside the mdat but is not fully contained in its data;
the zero-copy resolver checks extents only against the raw buffer. -/
theorem C2_mdat_containment :
    (∀ (m : MediaDataBox) (extent : ExtentRange) (buf : List Nat),
      extent.first < m.offset →
      m.readExtent extent buf =
        .error (.invalidData "mdat does not contain extent")) ∧
    (∀ (m : MediaDataBox) (start stop : Nat) (buf : List Nat),
      m.offset ≤ start → start ≤ stop →
      (start - m.offset) + (stop - start) < U64 →
      m.data.length < (start - m.offset) + (stop - start) →
      m.readExtent (.withLength start stop) buf =
        .error (.invalidData "extent crosses box boundary")) ∧
    (∀ (m : MediaDataBox) (start : Nat) (buf : List Nat),
      m.offset ≤ start → m.data.length < start - m.offset →
      m.readExtent (.toEnd start) buf =
        .error (.invalidData "extent crosses box boundary")) := by
  refine ⟨?_, ?_, ?_⟩
  · intro m extent buf h
    simp [MediaDataBox.readExtent, h, throw, throwThe, MonadExceptOf.throw,
      Bind.bind, Except.bind]
  · intro m start stop buf h1 h2 h3 h4
    have hn1 : ¬ (start < m.offset) := by
      simp [ExtentRange.first] at *; omega
    have hn2 : ¬ (stop < start) := by omega
    have hn3 : ¬ (U64 ≤ (start - m.offset) + (stop - start)) := by omega
    have hsl : listSlice m.data (start - m.offset)
        ((start - m.offset) + (stop - start)) = none := by
      simp [listSlice]; omega
    simp [MediaDataBox.readExtent, ExtentRange.first, hn1, hn2, hn3, hsl,
      throw, throwThe, MonadExceptOf.throw, Bind.bind, Except.bind, pure,
      Except.pure]
  · intro m start buf h1 h2
    have hn1 : ¬ (start < m.offset) := by omega
    have hsl : listSliceFrom m.data (start - m.offset) = none := by
      simp [listSliceFrom]; omega
    simp [MediaDataBox.readExtent, ExtentRange.first, hn1, hsl,
      throw, throwThe, MonadExceptOf.throw, Bind.bind, Except.bind, pure,
      Except.pure]

/-- Witness for C2 at concrete inputs: an mdat at offset 10 holding 4 bytes
rejects an extent starting before it, a bounded extent `[10, 16)` that
overruns it, and an unbounded extent starting past it. -/
theorem C2_witness :
    (MediaDataBox.mk 10 [1, 2, 3, 4]).readExtent (.withLength 5 6) [] =
      .error (.invalidData "mdat does not contain extent") ∧
    (MediaDataBox.mk 10 [1, 2, 3, 4]).readExtent (.withLength 10 16) [] =
      .error (.invalidData "extent crosses box boundary") ∧
    (MediaDataBox.mk 10 [1, 2, 3, 4]).readExtent (.toEnd 20) [] =
      .error (.invalidData "extent crosses box boundary") :=
  ⟨C2_mdat_containment.1 (MediaDataBox.mk 10 [1, 2, 3, 4]) (.withLength 5 6)
    [] (by decide),
   C2_mdat_containment.2.1 (MediaDataBox.mk 10 [1, 2, 3, 4]) 10 16 []
    (by decide) (by decide) (by decide) (by decide),
   C2_mdat_containment.2.2 (MediaDataBox.mk 10 [1, 2, 3, 4]) 20 []
    (by decide) (by decide)⟩

/-- Claim C3 (code bug): `c3File` is an animated AVIF whose track carries an
`edts`/`elst` with flags = 0, so by the elst convention (and the crate's own
tests) `loop_count` should be 1; the parser reports `loop_count = 0` because
no code path ever reads the `elst` box. -/
theorem C3_loop_count_always_zero :
    (fromBytes c3File).map (fun st => animationInfo st) =
      .ok (some (AnimationInfo.mk 1 0)) ∧ (0 : Nat) ≠ 1 := by decide

/-- Claim C4 (code bug): `c4File` is an animated AVIF with a color track and
a second track carrying a `tref`/`auxl` reference onto it; the parser keeps
only the first track's sample table (timescale 10, not the auxiliary
track's 9), and `frame(0)` yields a `FrameRef` holding exactly one payload
slice and a duration — the source's `FrameRef` has no alpha field at
all. -/
theorem C4_frame_carries_no_alpha :
    (fromBytes c4File).map (fun st =>
      (st.animationData.map (fun a => a.mediaTimescale), frame st 0)) =
      .ok (some 10, .ok (FrameRef.mk (.borrowed 114 118) 100)) := by decide

/-- Claim C5 counterexample: `smallValidFile` is non-empty, yet parsing it
with `peak_memory_limit = 1000` succeeds — the zero-copy parse path never
reserves memory. -/
theorem C5_counterexample :
    smallValidFile ≠ [] ∧
    (fromBytesWithConfig smallValidFile cfg1000 .unstoppable).isOk = true := by
  decide

/-- Claim C5 (amended): only `ResourceTracker::reserve` raises the
peak-memory error, and it does so exactly when the updated peak exceeds the
configured limit (with no limit it always succeeds); in the source only the
eager API's mdat reads perform reservations, so a non-empty file fails with
`ResourceLimitExceeded("peak memory limit exceeded")` only when such a
reservation pushes the peak above the limit. -/
theorem C5_reserve_behavior :
    (∀ (t : ResourceTracker) (bytes limit : Nat),
      t.config.peakMemoryLimit = some limit →
      (t.reserve bytes =
          .error (.resourceLimitExceeded "peak memory limit exceeded") ↔
        limit < Nat.max t.peakMemory
          (Nat.min (t.currentMemory + bytes) U64MAX))) ∧
    (∀ (t : ResourceTracker) (bytes : Nat),
      t.config.peakMemoryLimit = none →
      ∃ t2, t.reserve bytes = .ok t2) := by
  constructor
  · intro t bytes limit h
    simp only [ResourceTracker.reserve, h]
    by_cases hc :
      Nat.max t.peakMemory (Nat.min (t.currentMemory + bytes) U64MAX) > limit
    · simp [hc]
    · simp [hc]
  · intro t bytes h
    simp [ResourceTracker.reserve, h]

/-- Witness for C5: a fresh tracker with limit 1000 rejects a 1001-byte
reservation, and an unlimited tracker accepts it. -/
theorem C5_witness :
    (ResourceTracker.new cfg1000).reserve 1001 =
      .error (.resourceLimitExceeded "peak memory limit exceeded") ∧
    (∃ t2, (ResourceTracker.new DecodeConfig.unlimited).reserve 1001 =
      .ok t2) :=
  ⟨(C5_reserve_behavior.1 (ResourceTracker.new cfg1000) 1001 1000
      (by decide)).mpr (by decide),
   C5_reserve_behavior.2 (ResourceTracker.new DecodeConfig.unlimited) 1001
    (by decide)⟩

/-- Claim C6 counterexample: a file with one `moov` (track timescale 7)
records timescale 7, but `twoMoovFile` — the same `meta` followed by two
`moov` boxes with timescales 7 and 9 — records 9: the second `moov`
replaces the first instead of being skipped. -/
theorem C6_counterexample :
    (parseRaw oneMoov7File DecodeConfig.unlimited .unstoppable).map
      (fun p => p.animationData.map (fun a => a.1)) = .ok (some 7) ∧
    (parseRaw twoMoovFile DecodeConfig.unlimited .unstoppable).map
      (fun p => p.animationData.map (fun a => a.1)) = .ok (some 9) ∧
    (9 : Nat) ≠ 7 := by decide

/-- Claim C6 (amended): within a single `moov`, once a track has yielded a
sample table every further `trak` box is skipped with the recorded state
unchanged; but at the top level a later `moov` box that yields animation
data replaces the previously recorded animation data, so the last valid
`moov` wins. -/
theorem C6_moov_track_handling :
    (∀ (fuel : Nat) (r r1 : Rdr) (h : BoxHeader) (ts : Nat)
      (table : Option SampleTable),
      nextBox r = .ok (some (h, r1)) → h.name = trakCC →
      readMoovGo (fuel + 1) r (some ts) table =
        readMoovGo fuel (skipBoxRemain r1).pop (some ts) table) ∧
    (∀ (lenient : Bool) (fuel : Nat) (r r1 r2 : Rdr) (h : BoxHeader)
      (meta : Option AvifInternalMeta) (mdats : List MdatBounds)
      (anim : Option (Nat × SampleTable × Nat)) (ts : Nat)
      (stbl : SampleTable),
      nextBox r = .ok (some (h, r1)) → h.name = moovCC →
      readMoov r1 = .ok (some (ts, stbl), r2) →
      parseLoopGo lenient .unstoppable (fuel + 1) r meta mdats anim =
        (checkParserState h r2).bind (fun _ =>
          parseLoopGo lenient .unstoppable fuel r2.pop meta mdats
            (some (ts, stbl, 0)))) := by
  constructor
  · intro fuel r r1 h ts table hnb hname
    have hne : trakCC ≠ mvhdCC := by decide
    simp [readMoovGo, hnb, hname, hne, Bind.bind, Except.bind]
  · intro lenient fuel r r1 r2 h meta mdats anim ts stbl hnb hname hmoov
    have hne : moovCC ≠ metaCC := by decide
    simp [parseLoopGo, hnb, hname, hne, hmoov, Bind.bind, Except.bind,
      StopTok.check]

/-- Witness for C6 at concrete inputs: a `trak` box is skipped by the
`moov` loop when a timescale is already recorded, and a top-level `moov`
yielding timescale 9 replaces previously recorded animation data with
timescale 7. -/
theorem C6_witness :
    readMoovGo 4 (Rdr.mk (mkBox trakCC []) 0 []) (some 7) (some emptyTable) =
      readMoovGo 3
        (skipBoxRemain (Rdr.mk (mkBox trakCC []) 8 [0])).pop (some 7)
        (some emptyTable) ∧
    parseLoopGo false .unstoppable 4
        (Rdr.mk (moovBox (trakBox [] 9 stblBoxEmpty)) 0 []) none []
        (some (7, emptyTable, 0)) =
      (checkParserState (BoxHeader.mk moovCC 68 8 none)
          (Rdr.mk (moovBox (trakBox [] 9 stblBoxEmpty)) 68 [0])).bind
        (fun _ => parseLoopGo false .unstoppable 3
          (Rdr.mk (moovBox (trakBox [] 9 stblBoxEmpty)) 68 [0]).pop none []
          (some (9, emptyTable, 0))) :=
  ⟨C6_moov_track_handling.1 3 (Rdr.mk (mkBox trakCC []) 0 [])
    (Rdr.mk (mkBox trakCC []) 8 [0]) (BoxHeader.mk trakCC 8 8 none) 7
    (some emptyTable) (by decide) (by decide),
   C6_moov_track_handling.2 false 3
    (Rdr.mk (moovBox (trakBox [] 9 stblBoxEmpty)) 0 [])
    (Rdr.mk (moovBox (trakBox [] 9 stblBoxEmpty)) 8 [60])
    (Rdr.mk (moovBox (trakBox [] 9 stblBoxEmpty)) 68 [0])
    (BoxHeader.mk moovCC 68 8 none) none [] (some (7, emptyTable, 0)) 9
    emptyTable (by decide) (by decide) (by decide)⟩

/-- Claim C7: each parsed `iloc` extent is
`[base_offset + extent_offset, base_offset + extent_offset + extent_length)`
when the length is positive and unbounded from `base_offset + extent_offset`
when it is zero; either checked addition overflowing `u64` fails with
`InvalidData`; and a nonzero number of unread bits after the last item
fails with `InvalidData("invalid iloc size")`. -/
theorem C7_iloc_extent_ranges :
    (∀ b o l : Nat, b + o < U64 → l = 0 →
      mkExtentRange b o l = .ok (.toEnd (b + o))) ∧
    (∀ b o l : Nat, 0 < l → b + o + l < U64 →
      mkExtentRange b o l = .ok (.withLength (b + o) (b + o + l))) ∧
    (∀ b o l : Nat, U64 ≤ b + o →
      mkExtentRange b o l =
        .error (.invalidData "offset calculation overflow")) ∧
    (∀ b o l : Nat, b + o < U64 → 0 < l → U64 ≤ b + o + l →
      mkExtentRange b o l =
        .error (.invalidData "end calculation overflow")) ∧
    (∀ (version : IlocVersion) (bytes : List Nat)
      (items : List ItemLocationBoxItem) (b : Bits),
      readIlocPhase version bytes = .ok (items, b) → b.remaining ≠ 0 →
      readIlocBody version bytes =
        .error (.invalidData "invalid iloc size")) := by
  refine ⟨?_, ?_, ?_, ?_, ?_⟩
  · intro b o l h1 h2
    simp [mkExtentRange, Nat.not_le.mpr h1, h2]
  · intro b o l h1 h2
    have hno : ¬ U64 ≤ b + o := by omega
    have hl : l ≠ 0 := by omega
    simp [mkExtentRange, hno, Nat.not_le.mpr h2, hl]
  · intro b o l h
    simp [mkExtentRange, h]
  · intro b o l h1 h2 h3
    simp [mkExtentRange, Nat.not_le.mpr h1, h3]
    omega
  · intro version bytes items b hphase hrem
    simp [readIlocBody, hphase, hrem]

/-- Witness for C7 at concrete inputs: positive-length and zero-length
extents, both overflow errors, and a version-0 `iloc` body with one
trailing unread byte. -/
theorem C7_witness :
    mkExtentRange 1 2 0 = .ok (.toEnd 3) ∧
    mkExtentRange 1 2 3 = .ok (.withLength 3 6) ∧
    mkExtentRange (2 ^ 63) (2 ^ 63) 5 =
      .error (.invalidData "offset calculation overflow") ∧
    mkExtentRange 1 2 (U64 - 1) =
      .error (.invalidData "end calculation overflow") ∧
    readIlocBody .zero ilocLeftoverBytes =
      .error (.invalidData "invalid iloc size") :=
  ⟨C7_iloc_extent_ranges.1 1 2 0 (by decide) rfl,
   C7_iloc_extent_ranges.2.1 1 2 3 (by decide) (by decide),
   C7_iloc_extent_ranges.2.2.1 (2 ^ 63) (2 ^ 63) 5 (by decide),
   C7_iloc_extent_ranges.2.2.2.1 1 2 (U64 - 1) (by decide) (by decide)
    (by decide),
   C7_iloc_extent_ranges.2.2.2.2 .zero ilocLeftoverBytes []
    (Bits.mk ilocLeftoverBytes 32) (by decide) (by decide)⟩

/-- Claim C8 counterexample: `c8File` parses successfully as a grid whose
explicit `ImageGrid` property declares 2 rows and 2 columns, yet it has
only one `dimg` tile — the parser never checks `tile_count` against
`rows * columns`. -/
theorem C8_counterexample :
    (fromBytes c8File).map (fun st => (gridTileCount st, st.gridConfig)) =
      .ok (1, some (GridConfig.mk 2 2 64 64)) ∧ 1 ≠ 2 * 2 := by decide

/-- Claim C8 (amended): for a successfully built grid image the number of
tiles equals the number of `dimg` references from the primary item, the
tiles are enumerated in ascending `reference_index` order, and no relation
between the tile count and the grid config's `rows * columns` is
enforced. -/
theorem C8_tile_enumeration (raw : List Nat) (parsed : ParsedStructure)
    (config : DecodeConfig) (st : AvifParserState)
    (hres : build raw parsed config = .ok st)
    (hgrid : primaryIsGrid parsed.meta = true) :
    st.tiles.length = (dimgTiles parsed.meta).length ∧
    List.Sorted (· ≤ ·)
      ((sortTiles (dimgTiles parsed.meta)).map (fun t => t.2)) ∧
    ∃ exts, collectTileExtents parsed.meta
        ((sortTiles (dimgTiles parsed.meta)).map (fun t => t.1)) = .ok exts ∧
      st.tiles = exts := by
  simp only [build, hgrid, if_true, Bind.bind, Except.bind, pure,
    Except.pure] at hres
  cases hp : getItemExtents parsed.meta parsed.meta.primaryItemId with
  | error e => rw [hp] at hres; cases hres
  | ok primary =>
    rw [hp] at hres
    cases hfa : findAlphaItemId parsed.meta with
    | none =>
      simp only [hfa] at hres
      cases hv : validateGridTiles config (dimgTiles parsed.meta).length with
      | error e => rw [hv] at hres; cases hres
      | ok u =>
        rw [hv] at hres
        cases hc : collectTileExtents parsed.meta
            ((sortTiles (dimgTiles parsed.meta)).map (fun t => t.1)) with
        | error e => rw [hc] at hres; cases hres
        | ok exts =>
          rw [hc] at hres
          cases hanim : parsed.animationData with
          | none =>
            simp only [hanim] at hres
            cases hres
            refine ⟨?_, sortTiles_sorted _, exts, rfl, rfl⟩
            rw [collectTileExtents_length _ _ _ hc]
            simp [sortTiles_length]
          | some a =>
            obtain ⟨ts, stbl, lc⟩ := a
            simp only [hanim] at hres
            cases hva : validateAnimationFrames config
                stbl.sampleSizes.length with
            | error e => rw [hva] at hres; cases hres
            | ok u2 =>
              rw [hva] at hres
              cases hres
              refine ⟨?_, sortTiles_sorted _, exts, rfl, rfl⟩
              rw [collectTileExtents_length _ _ _ hc]
              simp [sortTiles_length]
    | some aid =>
      simp only [hfa] at hres
      cases ha : getItemExtents parsed.meta aid with
      | error e => rw [ha] at hres; cases hres
      | ok alphaExt =>
        rw [ha] at hres
        cases hv : validateGridTiles config (dimgTiles parsed.meta).length with
        | error e => rw [hv] at hres; cases hres
        | ok u =>
          rw [hv] at hres
          cases hc : collectTileExtents parsed.meta
              ((sortTiles (dimgTiles parsed.meta)).map (fun t => t.1)) with
          | error e => rw [hc] at hres; cases hres
          | ok exts =>
            rw [hc] at hres
            cases hanim : parsed.animationData with
            | none =>
              simp only [hanim] at hres
              cases hres
              refine ⟨?_, sortTiles_sorted _, exts, rfl, rfl⟩
              rw [collectTileExtents_length _ _ _ hc]
              simp [sortTiles_length]
            | some a =>
              obtain ⟨ts, stbl, lc⟩ := a
              simp only [hanim] at hres
              cases hva : validateAnimationFrames config
                  stbl.sampleSizes.length with
              | error e => rw [hva] at hres; cases hres
              | ok u2 =>
                rw [hva] at hres
                cases hres
                refine ⟨?_, sortTiles_sorted _, exts, rfl, rfl⟩
                rw [collectTileExtents_length _ _ _ hc]
                simp [sortTiles_length]

/-- Witness for C8 at concrete inputs: building `c8Parsed` yields `c8State`,
whose single tile matches its single `dimg` reference. -/
theorem C8_witness :
    c8State.tiles.length = (dimgTiles c8Parsed.meta).length ∧
    List.Sorted (· ≤ ·)
      ((sortTiles (dimgTiles c8Parsed.meta)).map (fun t => t.2)) ∧
    ∃ exts, collectTileExtents c8Parsed.meta
        ((sortTiles (dimgTiles c8Parsed.meta)).map (fun t => t.1)) =
        .ok exts ∧
      c8State.tiles = exts :=
  C8_tile_enumeration [0, 1, 2] c8Parsed DecodeConfig.unlimited c8State
    (by decide) (by decide)

/-- Claim C9 counterexample: with a stop token that immediately reports
Cancelled, parsing the empty input returns
`InvalidData("missing meta")`, not `Stopped(Cancelled)` — the token is
never consulted when no box follows `ftyp`. -/
theorem C9_counterexample :
    parseRaw [] DecodeConfig.default .immediatelyCancelled =
      .error (.invalidData "missing meta") ∧
    parseRaw [] DecodeConfig.default .immediatelyCancelled ≠
      .error (.stopped .cancelled) := by decide

/-- Claim C9 (amended): the stop token is consulted after each top-level
box following `ftyp`; an immediately-Cancelled token makes the parse return
`Stopped(Cancelled)` as soon as one such box header is read, and when no
box follows `ftyp` the parse finishes (failing with
`InvalidData("missing meta")`) without consulting the token. The source's
periodic check every 16 extractions guards the legacy grid-tile loop;
animation-frame extraction performs no stop checks. -/
theorem C9_cancellation (data : List Nat) (config : DecodeConfig) (r0 : Rdr)
    (hf : parseFtypPhase (Rdr.mk data 0 []) = .ok r0) :
    (∀ h r1, nextBox r0 = .ok (some (h, r1)) →
      parseRaw data config .immediatelyCancelled =
        .error (.stopped .cancelled)) ∧
    (nextBox r0 = .ok none →
      parseRaw data config .immediatelyCancelled =
        .error (.invalidData "missing meta")) := by
  constructor
  · intro h r1 hnb
    unfold parseRaw
    simp [hf, Bind.bind, Except.bind, fuelOf, parseLoopGo, hnb,
      StopTok.check, throw, throwThe, MonadExceptOf.throw]
  · intro hnb
    unfold parseRaw
    simp [hf, Bind.bind, Except.bind, fuelOf, parseLoopGo, hnb, throw,
      throwThe, MonadExceptOf.throw]

/-- Witness for C9 at concrete inputs: an `ftyp` followed by an `mdat` is
cancelled immediately, while a bare `ftyp` completes to the missing-meta
error without consulting the token. -/
theorem C9_witness :
    parseRaw (ftypBox ++ mdatBox [1]) DecodeConfig.default
      .immediatelyCancelled = .error (.stopped .cancelled) ∧
    parseRaw ftypBox DecodeConfig.default .immediatelyCancelled =
      .error (.invalidData "missing meta") :=
  ⟨(C9_cancellation (ftypBox ++ mdatBox [1]) DecodeConfig.default
      (Rdr.mk (ftypBox ++ mdatBox [1]) 16 []) (by decide)).1
    (BoxHeader.mk mdatCC 9 8 none) (Rdr.mk (ftypBox ++ mdatBox [1]) 24 [1])
    (by decide),
   (C9_cancellation ftypBox DecodeConfig.default (Rdr.mk ftypBox 16 [])
      (by decide)).2 (by decide)⟩

/-- Claim C10: when the input is too short for even one box header (for
example, the empty buffer), the `ftyp`-first rule is never triggered and no
`UnexpectedEof` escapes: the parse fails with
`InvalidData("missing meta")`. -/
theorem C10_empty_input_missing_meta (data : List Nat)
    (config : DecodeConfig) (stop : StopTok) (h : data.length < 4) :
    parseRaw data config stop = .error (.invalidData "missing meta") := by
  have h1 : nextBox (Rdr.mk data 0 []) = .ok none := by
    apply nextBox_eof
    simp [Rdr.avail]
    omega
  unfold parseRaw parseFtypPhase
  simp [h1, Bind.bind, Except.bind, fuelOf, parseLoopGo, throw, throwThe,
    MonadExceptOf.throw]

/-- Witness for C10 at the empty buffer. -/
theorem C10_witness :
    parseRaw [] DecodeConfig.default .unstoppable =
      .error (.invalidData "missing meta") :=
  C10_empty_input_missing_meta [] DecodeConfig.default .unstoppable
    (by decide)

end Avif
